import Mathlib

/-!
# Bstein's Adventure: the per-frame simulation of `src/game.js`

A shallow embedding of the simulation core of the platformer (`tryJump`,
`buildLevel`, `update` and the pointer-down restart handler) together with
proofs about it.

Modelling conventions.

* JavaScript numbers are modelled twice.  The main embedding computes in exact
  rationals `ℚ`, with `0.7`, `0.85`, `0.9` the rationals `7/10`, `17/20`, `9/10`;
  it carries the properties that rounding does not touch.  The namespace
  `Binary64` embeds `update` again with every arithmetic operation rounded to
  the nearest double; it carries the properties that depend on rounding.
  Infinities and NaN are outside both.
* The module-level mutable objects (`player`, `keys`, `camera`, the arrays
  `platforms`, `coins`, `hazards`, the variable `goal`) and the two HUD text
  nodes (`msgEl.textContent`, `scoreEl.textContent`) are the fields of one
  record `World`, threaded through every operation.
* `for (const e of arr)` loops are folds over the list in list order; a loop
  that mutates the elements it visits returns the rewritten list.
* `canvas.clientWidth` (the source's `viewW()`) is an argument of `update`.
-/

namespace Game

/-! ## Data model -/

/-- The `player` object (source lines 39-47). -/
structure Player where
  x : ℚ
  y : ℚ
  w : ℚ
  h : ℚ
  vx : ℚ
  vy : ℚ
  grounded : Bool
  facing : Int
  coins : Nat
  won : Bool
  dead : Bool
deriving DecidableEq

/-- The `keys` object (source line 50). -/
structure Keys where
  left : Bool
  right : Bool
  jump : Bool
deriving DecidableEq

/-- An element of `platforms`: `{ x, y, w, h }`. -/
structure Platform where
  x : ℚ
  y : ℚ
  w : ℚ
  h : ℚ
deriving DecidableEq

/-- An element of `coins`: `{ x, y, r, taken }`. -/
structure Coin where
  x : ℚ
  y : ℚ
  r : ℚ
  taken : Bool
deriving DecidableEq

/-- An element of `hazards`: `{ x, y, r }`. -/
structure Hazard where
  x : ℚ
  y : ℚ
  r : ℚ
deriving DecidableEq

/-- The `goal` object: `{ x, y, r, taken }`. -/
structure Goal where
  x : ℚ
  y : ℚ
  r : ℚ
  taken : Bool
deriving DecidableEq

/-- The `camera` object (source line 34). -/
structure Camera where
  x : ℚ
  y : ℚ
deriving DecidableEq

/-- The whole mutable state of the module.  `goal = none` is the source's
`goal = null`; `msg` and `score` are the text of `msgEl` and `scoreEl`. -/
structure World where
  player : Player
  keys : Keys
  platforms : List Platform
  coins : List Coin
  hazards : List Hazard
  goal : Option Goal
  camera : Camera
  msg : String
  score : String
deriving DecidableEq

/-! ## Constants (source lines 27-31) -/

def GRAVITY : ℚ := 0.9
def MOVE_SPEED : ℚ := 4.0
def JUMP_VEL : ℚ := -14
def FRICTION : ℚ := 0.85
def MAX_FALL : ℚ := 24

/-- The declared initial `player` object (source lines 39-47). -/
def initialPlayer : Player :=
  { x := 60, y := 0, w := 28, h := 36, vx := 0, vy := 0, grounded := false,
    facing := 1, coins := 0, won := false, dead := false }

/-! ## Jump (source lines 78-83) -/

def tryJump (s : World) : World :=
  if s.player.grounded && !s.player.dead && !s.player.won then
    { s with player := { s.player with vy := JUMP_VEL, grounded := false } }
  else s

/-! ## Level construction (source lines 88-146) -/

def addPlatform (s : World) (x y w h : ℚ) : World :=
  { s with platforms := s.platforms ++ [{ x := x, y := y, w := w, h := h }] }

def addCoin (s : World) (x y : ℚ) : World :=
  { s with coins := s.coins ++ [{ x := x, y := y, r := 8, taken := false }] }

/-- Every call in the source passes `r` explicitly, so the default value `12`
of the JavaScript parameter is never used. -/
def addHazard (s : World) (x y r : ℚ) : World :=
  { s with hazards := s.hazards ++ [{ x := x, y := y, r := r }] }

def setGoal (s : World) (x y : ℚ) : World :=
  { s with goal := some { x := x, y := y, r := 14, taken := false } }

def coinSpots : List (ℚ × ℚ) :=
  [(220, 310), (380, 270), (540, 230),
   (800, 330), (1000, 290), (1280, 250),
   (1520, 330), (1720, 290), (1940, 250),
   (2180, 210), (2460, 270), (2700, 230),
   (2980, 190), (3260, 230), (3500, 290)]

def buildLevel (s : World) : World :=
  let s := { s with platforms := [], coins := [], hazards := [] }
  let groundY : ℚ := 420
  -- Ground stretches
  let s := (List.range 10).foldl (fun s i => addPlatform s ((i : ℚ) * 640) groundY 540 24) s
  -- Floating platforms and decorations
  let s := addPlatform s 200 340 120 16
  let s := addPlatform s 360 300 100 16
  let s := addPlatform s 520 260 120 16
  let s := addPlatform s 760 360 120 16
  let s := addPlatform s 980 320 120 16
  let s := addPlatform s 1240 280 160 16
  let s := addPlatform s 1500 360 120 16
  let s := addPlatform s 1700 320 120 16
  let s := addPlatform s 1900 280 160 16
  let s := addPlatform s 2160 240 160 16
  let s := addPlatform s 2440 300 120 16
  let s := addPlatform s 2680 260 160 16
  let s := addPlatform s 2960 220 160 16
  let s := addPlatform s 3240 260 160 16
  let s := addPlatform s 3480 320 120 16
  -- Coins scattered
  let s := coinSpots.foldl (fun s c => addCoin s c.1 c.2) s
  -- Hazards
  let s := addHazard s (640 - 40) (groundY + 8) 14
  let s := addHazard s (1280 - 40) (groundY + 8) 14
  let s := addHazard s (1920 - 40) (groundY + 8) 14
  let s := addHazard s (2560 - 40) (groundY + 8) 14
  let s := addHazard s (3200 - 40) (groundY + 8) 14
  -- Goal
  let s := setGoal s 3720 290
  -- Reset player
  { s with player :=
      { s.player with x := 60, y := 0, vx := 0, vy := 0, grounded := false,
                      coins := 0, won := false, dead := false } }

/-! ## Collision helpers (source lines 149-152) -/

def rectsOverlap (a : Player) (b : Platform) : Bool :=
  decide (a.x < b.x + b.w) && decide (a.x + a.w > b.x) &&
    decide (a.y < b.y + b.h) && decide (a.y + a.h > b.y)

def clamp (v lo hi : ℚ) : ℚ := max lo (min hi v)

/-! ## The frame update (source lines 155-239), stage by stage

These stages compute in exact rationals.  Where a property depends on the
rounding of the source's doubles (the `vx - 0.7 + 0.7` of `applyInput` with both
keys held, the `y - vy + h` of `resolvePlatform`), it is settled on the
`Binary64` stages further down instead. -/

/-- Input (source lines 157-160). -/
def applyInput (keys : Keys) (player : Player) : Player :=
  let player := if keys.left then { player with vx := player.vx - 0.7, facing := -1 } else player
  let player := if keys.right then { player with vx := player.vx + 0.7, facing := 1 } else player
  let player := if !keys.left && !keys.right then { player with vx := player.vx * FRICTION } else player
  { player with vx := clamp player.vx (-MOVE_SPEED) MOVE_SPEED }

/-- Gravity (source lines 163-164). -/
def applyGravity (player : Player) : Player :=
  let player := { player with vy := player.vy + GRAVITY }
  { player with vy := clamp player.vy (-999) MAX_FALL }

/-- Apply velocity (source lines 167-168). -/
def applyVelocity (player : Player) : Player :=
  let player := { player with x := player.x + player.vx }
  { player with y := player.y + player.vy }

/-- The body of the platform loop for one platform (source lines 173-192). -/
def resolvePlatform (player : Player) (p : Platform) : Player :=
  if rectsOverlap player p then
    let prevBottom := player.y - player.vy + player.h
    let prevTop := player.y - player.vy
    if prevBottom ≤ p.y ∧ player.vy > 0 then
      -- landed
      { player with y := p.y - player.h, vy := 0, grounded := true }
    else if prevTop ≥ p.y + p.h ∧ player.vy < 0 then
      -- hit ceiling
      { player with y := p.y + p.h, vy := 0 }
    else
      -- horizontal resolve
      let player :=
        if player.vx > 0 then { player with x := p.x - player.w }
        else if player.vx < 0 then { player with x := p.x + p.w }
        else player
      { player with vx := 0 }
  else player

/-- Collide with platforms (source lines 171-193). -/
def collidePlatforms (platforms : List Platform) (player : Player) : Player :=
  platforms.foldl resolvePlatform { player with grounded := false }

/-- The proximity test of the coin loop (source lines 198-200). -/
def coinInRange (player : Player) (c : Coin) : Bool :=
  let dx := (player.x + player.w / 2) - c.x
  let dy := (player.y + player.h / 2) - c.y
  decide (dx * dx + dy * dy < (c.r + 14) * (c.r + 14))

/-- The body of the coin loop for one coin (source lines 197-204): the
possibly updated player and the possibly flagged coin. -/
def collectCoin (player : Player) (c : Coin) : Player × Coin :=
  if !c.taken then
    if coinInRange player c then
      ({ player with coins := player.coins + 1 }, { c with taken := true })
    else (player, c)
  else (player, c)

/-- Coins (source lines 196-205). -/
def collectCoins : Player → List Coin → Player × List Coin
  | player, [] => (player, [])
  | player, c :: cs =>
    let pc := collectCoin player c
    let rest := collectCoins pc.1 cs
    (rest.1, pc.2 :: rest.2)

/-- The proximity test of the hazard loop (source lines 209-211). -/
def hazardInRange (player : Player) (h : Hazard) : Bool :=
  let dx := (player.x + player.w / 2) - h.x
  let dy := (player.y + player.h / 2) - h.y
  decide (dx * dx + dy * dy < (h.r + 12) * (h.r + 12))

/-- The body of the hazard loop for one hazard (source lines 209-214). -/
def touchHazard (player : Player) (h : Hazard) : Player :=
  if hazardInRange player h then { player with dead := true } else player

/-- Hazards and the fall check (source lines 208-216). -/
def checkHazards (hazards : List Hazard) (player : Player) : Player :=
  let player := hazards.foldl touchHazard player
  if player.y > 1000 then { player with dead := true } else player

/-- The proximity test of the goal check (source lines 224-226). -/
def goalInRange (player : Player) (g : Goal) : Bool :=
  let dx := (player.x + player.w / 2) - g.x
  let dy := (player.y + player.h / 2) - g.y
  decide (dx * dx + dy * dy < (g.r + 14) * (g.r + 14))

/-- One call of `update` (source lines 155-239). -/
def update (viewW : ℚ) (s : World) : World :=
  -- Input, gravity, velocity, platforms
  let player := applyInput s.keys s.player
  let player := applyGravity player
  let player := applyVelocity player
  let player := collidePlatforms s.platforms player
  -- Coins
  let pc := collectCoins player s.coins
  let player := pc.1
  let coins := pc.2
  -- Hazards
  let player := checkHazards s.hazards player
  let msg := if player.dead then "Ouch. Tap to respawn." else s.msg
  -- Goal
  let hit : Bool :=
    !player.won && (match s.goal with
      | some g => goalInRange player g
      | none => false)
  let player := if hit then { player with won := true } else player
  let msg := if hit then "You found Goldstein’s Penny!" else msg
  -- Camera follows
  let camera : Camera := { x := clamp (player.x + player.w / 2 - viewW / 2) 0 4000, y := 0 }
  -- HUD
  let score := "Coins: " ++ toString player.coins
  let msg := if !player.won && !player.dead then "Find Goldstein’s Penny →" else msg
  { s with player := player, coins := coins, camera := camera, msg := msg, score := score }

/-- The `pointerdown` handler (source lines 242-246). -/
def pointerdown (s : World) : World :=
  if s.player.dead || s.player.won then buildLevel s else s

/-- The effect of a key or touch-button event on `keys.left`. -/
def setLeft (s : World) (down : Bool) : World :=
  { s with keys := { s.keys with left := down } }

/-- The effect of a key or touch-button event on `keys.right`. -/
def setRight (s : World) (down : Bool) : World :=
  { s with keys := { s.keys with right := down } }

/-! ## The frame update in double precision

The definitions above compute in exact rationals.  The source computes in IEEE
754 binary64 with round-to-nearest, ties-to-even.  The namespace `Binary64`
embeds `update` a second time with every `+`, `-`, `*`, `/` of the source
rounded by `fl`; comparisons, `Math.max` and `Math.min` are exact on finite
values.  Decimal literals of the source denote their nearest double
(`0.7` is `fl 0.7`).  Overflow to infinity and NaN are outside this model too. -/

namespace Binary64

/-- Round a rational to the nearest integer, a tie to the even neighbour. -/
def roundEven (x : ℚ) : ℤ :=
  if x - ⌊x⌋ < 1 / 2 then ⌊x⌋
  else if x - ⌊x⌋ > 1 / 2 then ⌊x⌋ + 1
  else if ⌊x⌋ % 2 = 0 then ⌊x⌋ else ⌊x⌋ + 1

/-- The exponent of the unit in the last place for a value of the magnitude of
`q`: 53 significant bits, with the subnormal floor at `2 ^ (-1074)`. -/
def ulpExp (q : ℚ) : ℤ := max (Int.log 2 |q| - 52) (-1074)

/-- The double nearest to `q` (round to nearest, ties to even). -/
def fl (q : ℚ) : ℚ := (roundEven (q / 2 ^ ulpExp q) : ℚ) * 2 ^ ulpExp q

/-- The `+` of the source. -/
def fadd (a b : ℚ) : ℚ := fl (a + b)

/-- The `-` of the source. -/
def fsub (a b : ℚ) : ℚ := fl (a - b)

/-- The `*` of the source. -/
def fmul (a b : ℚ) : ℚ := fl (a * b)

/-- The `/` of the source. -/
def fdiv (a b : ℚ) : ℚ := fl (a / b)

def GRAVITY : ℚ := fl 0.9
def FRICTION : ℚ := fl 0.85

/-- Collision helper `rectsOverlap` (source lines 149-151). -/
def rectsOverlap (a : Player) (b : Platform) : Bool :=
  decide (a.x < fadd b.x b.w) && decide (fadd a.x a.w > b.x) &&
    decide (a.y < fadd b.y b.h) && decide (fadd a.y a.h > b.y)

/-- Input (source lines 157-160). -/
def applyInput (keys : Keys) (player : Player) : Player :=
  let player :=
    if keys.left then { player with vx := fsub player.vx (fl 0.7), facing := -1 } else player
  let player :=
    if keys.right then { player with vx := fadd player.vx (fl 0.7), facing := 1 } else player
  let player :=
    if !keys.left && !keys.right then { player with vx := fmul player.vx FRICTION } else player
  { player with vx := clamp player.vx (-MOVE_SPEED) MOVE_SPEED }

/-- Gravity (source lines 163-164). -/
def applyGravity (player : Player) : Player :=
  let player := { player with vy := fadd player.vy GRAVITY }
  { player with vy := clamp player.vy (-999) MAX_FALL }

/-- Apply velocity (source lines 167-168). -/
def applyVelocity (player : Player) : Player :=
  let player := { player with x := fadd player.x player.vx }
  { player with y := fadd player.y player.vy }

/-- The body of the platform loop for one platform (source lines 173-192). -/
def resolvePlatform (player : Player) (p : Platform) : Player :=
  if rectsOverlap player p then
    let prevBottom := fadd (fsub player.y player.vy) player.h
    let prevTop := fsub player.y player.vy
    if prevBottom ≤ p.y ∧ player.vy > 0 then
      -- landed
      { player with y := fsub p.y player.h, vy := 0, grounded := true }
    else if prevTop ≥ fadd p.y p.h ∧ player.vy < 0 then
      -- hit ceiling
      { player with y := fadd p.y p.h, vy := 0 }
    else
      -- horizontal resolve
      let player :=
        if player.vx > 0 then { player with x := fsub p.x player.w }
        else if player.vx < 0 then { player with x := fadd p.x p.w }
        else player
      { player with vx := 0 }
  else player

/-- Collide with platforms (source lines 171-193). -/
def collidePlatforms (platforms : List Platform) (player : Player) : Player :=
  platforms.foldl resolvePlatform { player with grounded := false }

/-- The proximity test of the coin loop (source lines 198-200). -/
def coinInRange (player : Player) (c : Coin) : Bool :=
  let dx := fsub (fadd player.x (fdiv player.w 2)) c.x
  let dy := fsub (fadd player.y (fdiv player.h 2)) c.y
  decide (fadd (fmul dx dx) (fmul dy dy) < fmul (fadd c.r 14) (fadd c.r 14))

/-- The body of the coin loop for one coin (source lines 197-204). -/
def collectCoin (player : Player) (c : Coin) : Player × Coin :=
  if !c.taken then
    if coinInRange player c then
      ({ player with coins := player.coins + 1 }, { c with taken := true })
    else (player, c)
  else (player, c)

/-- Coins (source lines 196-205). -/
def collectCoins : Player → List Coin → Player × List Coin
  | player, [] => (player, [])
  | player, c :: cs =>
    let pc := collectCoin player c
    let rest := collectCoins pc.1 cs
    (rest.1, pc.2 :: rest.2)

/-- The proximity test of the hazard loop (source lines 209-211). -/
def hazardInRange (player : Player) (h : Hazard) : Bool :=
  let dx := fsub (fadd player.x (fdiv player.w 2)) h.x
  let dy := fsub (fadd player.y (fdiv player.h 2)) h.y
  decide (fadd (fmul dx dx) (fmul dy dy) < fmul (fadd h.r 12) (fadd h.r 12))

/-- The body of the hazard loop for one hazard (source lines 209-214). -/
def touchHazard (player : Player) (h : Hazard) : Player :=
  if hazardInRange player h then { player with dead := true } else player

/-- Hazards and the fall check (source lines 208-216). -/
def checkHazards (hazards : List Hazard) (player : Player) : Player :=
  let player := hazards.foldl touchHazard player
  if player.y > 1000 then { player with dead := true } else player

/-- The proximity test of the goal check (source lines 224-226). -/
def goalInRange (player : Player) (g : Goal) : Bool :=
  let dx := fsub (fadd player.x (fdiv player.w 2)) g.x
  let dy := fsub (fadd player.y (fdiv player.h 2)) g.y
  decide (fadd (fmul dx dx) (fmul dy dy) < fmul (fadd g.r 14) (fadd g.r 14))

/-- One call of `update` (source lines 155-239) in double precision. -/
def update (viewW : ℚ) (s : World) : World :=
  -- Input, gravity, velocity, platforms
  let player := applyInput s.keys s.player
  let player := applyGravity player
  let player := applyVelocity player
  let player := collidePlatforms s.platforms player
  -- Coins
  let pc := collectCoins player s.coins
  let player := pc.1
  let coins := pc.2
  -- Hazards
  let player := checkHazards s.hazards player
  let msg := if player.dead then "Ouch. Tap to respawn." else s.msg
  -- Goal
  let hit : Bool :=
    !player.won && (match s.goal with
      | some g => goalInRange player g
      | none => false)
  let player := if hit then { player with won := true } else player
  let msg := if hit then "You found Goldstein’s Penny!" else msg
  -- Camera follows
  let camera : Camera :=
    { x := clamp (fsub (fadd player.x (fdiv player.w 2)) (fdiv viewW 2)) 0 4000, y := 0 }
  -- HUD
  let score := "Coins: " ++ toString player.coins
  let msg := if !player.won && !player.dead then "Find Goldstein’s Penny →" else msg
  { s with player := player, coins := coins, camera := camera, msg := msg, score := score }

/-- The player after this frame's input, gravity and velocity integration in
double precision, before the platform loop. -/
def integrated (s : World) : Player :=
  applyVelocity (applyGravity (applyInput s.keys s.player))

/-- The player after this frame's movement and collision resolution in double
precision, before the proximity checks. -/
def movedPlayer (s : World) : Player :=
  collidePlatforms s.platforms (integrated s)

end Binary64

/-- The fields the movement stages write and the proximity checks leave alone. -/
def sameMotion (p q : Player) : Prop :=
  q.x = p.x ∧ q.y = p.y ∧ q.w = p.w ∧ q.h = p.h ∧ q.vx = p.vx ∧ q.vy = p.vy ∧
    q.grounded = p.grounded ∧ q.facing = p.facing

/-! ## Derived notions used to state the properties -/

/-- The player after this frame's input, gravity, movement and collision
resolution (source lines 157-193), before the proximity checks. -/
def movedPlayer (s : World) : Player :=
  collidePlatforms s.platforms (applyVelocity (applyGravity (applyInput s.keys s.player)))

/-- The player after this frame's input, gravity and velocity integration
(source lines 157-168), before the platform loop. -/
def integrated (s : World) : Player :=
  applyVelocity (applyGravity (applyInput s.keys s.player))

/-- The goal test of `update`, at the position reached after movement. -/
def goalHit (s : World) : Bool :=
  match s.goal with
  | some g => goalInRange (movedPlayer s) g
  | none => false

/-- The hazard and fall test of `update`, at the position reached after movement. -/
def hazardHit (s : World) : Bool :=
  s.hazards.any (hazardInRange (movedPlayer s)) || decide ((movedPlayer s).y > 1000)

/-- A coin is picked up by a player at this position: it is untaken and in range. -/
def picksUp (player : Player) (c : Coin) : Bool :=
  !c.taken && coinInRange player c

/-- The number of coins of the list whose `taken` flag is set. -/
def takenCount (coins : List Coin) : Nat :=
  (coins.filter (fun c => c.taken)).length

/-- The coin-count invariant: the tally equals the number of taken coins. -/
def coinInv (s : World) : Prop :=
  s.player.coins = takenCount s.coins

/-- States reachable from a built level by frames, jump requests, key changes
and pointer-down restarts. -/
inductive Reachable : World → Prop
  | build (s : World) : Reachable (buildLevel s)
  | frame (viewW : ℚ) (s : World) : Reachable s → Reachable (update viewW s)
  | jump (s : World) : Reachable s → Reachable (tryJump s)
  | left (s : World) (down : Bool) : Reachable s → Reachable (setLeft s down)
  | right (s : World) (down : Bool) : Reachable s → Reachable (setRight s down)
  | restart (s : World) : Reachable s → Reachable (pointerdown s)

/-- The fields no stage of the movement writes. -/
def sameFixed (p q : Player) : Prop :=
  q.w = p.w ∧ q.h = p.h ∧ q.coins = p.coins ∧ q.won = p.won ∧ q.dead = p.dead

/-- The velocity bounds together with "grounded implies no vertical speed". -/
def velOk (p : Player) : Prop :=
  -4 ≤ p.vx ∧ p.vx ≤ 4 ∧ p.vy ≤ 24 ∧ (p.grounded = true → p.vy = 0)

/-- The platform list `buildLevel` produces, written out: the ten ground
stretches followed by the fifteen floating platforms. -/
def levelPlatforms : List Platform :=
  [{ x := 0, y := 420, w := 540, h := 24 }, { x := 640, y := 420, w := 540, h := 24 },
   { x := 1280, y := 420, w := 540, h := 24 }, { x := 1920, y := 420, w := 540, h := 24 },
   { x := 2560, y := 420, w := 540, h := 24 }, { x := 3200, y := 420, w := 540, h := 24 },
   { x := 3840, y := 420, w := 540, h := 24 }, { x := 4480, y := 420, w := 540, h := 24 },
   { x := 5120, y := 420, w := 540, h := 24 }, { x := 5760, y := 420, w := 540, h := 24 },
   { x := 200, y := 340, w := 120, h := 16 }, { x := 360, y := 300, w := 100, h := 16 },
   { x := 520, y := 260, w := 120, h := 16 }, { x := 760, y := 360, w := 120, h := 16 },
   { x := 980, y := 320, w := 120, h := 16 }, { x := 1240, y := 280, w := 160, h := 16 },
   { x := 1500, y := 360, w := 120, h := 16 }, { x := 1700, y := 320, w := 120, h := 16 },
   { x := 1900, y := 280, w := 160, h := 16 }, { x := 2160, y := 240, w := 160, h := 16 },
   { x := 2440, y := 300, w := 120, h := 16 }, { x := 2680, y := 260, w := 160, h := 16 },
   { x := 2960, y := 220, w := 160, h := 16 }, { x := 3240, y := 260, w := 160, h := 16 },
   { x := 3480, y := 320, w := 120, h := 16 }]

/-- The coin list `buildLevel` produces: an untaken coin of radius 8 per spot. -/
def levelCoins : List Coin :=
  coinSpots.map (fun c => { x := c.1, y := c.2, r := 8, taken := false })

/-- The hazard list `buildLevel` produces, written out. -/
def levelHazards : List Hazard :=
  [{ x := 600, y := 428, r := 14 }, { x := 1240, y := 428, r := 14 },
   { x := 1880, y := 428, r := 14 }, { x := 2520, y := 428, r := 14 },
   { x := 3160, y := 428, r := 14 }]

/-- Successive frames: one call of `update` per viewport width of the list,
with no other event in between. -/
def frames (viewWs : List ℚ) (s : World) : World :=
  viewWs.foldl (fun t viewW => update viewW t) s

/-- The first ground stretch, the head of the platform list of the built level. -/
def ground0 : Platform := { x := 0, y := 420, w := 540, h := 24 }

/-- What stays true of the world while the spawned player falls with no
horizontal input: the built platform list, no left/right key held, and a
player of the declared size at `x = 60` with no horizontal speed. -/
def Spawned (t : World) : Prop :=
  t.platforms = levelPlatforms ∧ t.keys.left = false ∧ t.keys.right = false ∧
    t.player.x = 60 ∧ t.player.vx = 0 ∧ t.player.w = 28 ∧ t.player.h = 36

/-- Vertical speed of the spawned player after `k` frames of free fall. -/
def fallVy (k : ℕ) : ℚ := if k ≤ 26 then 0.9 * k else 24

/-- Height of the spawned player after `k` frames of free fall. -/
def fallY (k : ℕ) : ℚ := if k ≤ 26 then 0.45 * k * (k + 1) else 315.9 + 24 * ((k : ℚ) - 26)

/-- The state of the spawn fall after `k` frames: in free fall on the closed-form
trajectory for the first 28 frames, landed on the ground from frame 29 on. -/
def Falling (k : ℕ) (t : World) : Prop :=
  Spawned t ∧
    if k < 29 then t.player.y = fallY k ∧ t.player.vy = fallVy k
    else t.player.y = 384 ∧ t.player.vy = 0 ∧ t.player.grounded = true

/-! ## Concrete states used as witnesses and counterexamples -/

/-- A player standing on a single ground slab, no input held. -/
def standing : World :=
  { player := { initialPlayer with y := 384, grounded := true },
    keys := { left := false, right := false, jump := false },
    platforms := [{ x := 0, y := 420, w := 540, h := 24 }],
    coins := [], hazards := [], goal := none,
    camera := { x := 0, y := 0 }, msg := "", score := "" }

/-- An empty level around a player at the given position with the given status;
`goal`, `coins` and `hazards` are filled in by the states below. -/
def emptyLevel (x y : ℚ) (dead won : Bool) : World :=
  { player := { initialPlayer with x := x, y := y, dead := dead, won := won },
    keys := { left := false, right := false, jump := false },
    platforms := [], coins := [], hazards := [], goal := none,
    camera := { x := 0, y := 0 }, msg := "", score := "" }

/-- The level's goal, as `setGoal 3720 290` builds it. -/
def levelGoal : Goal := { x := 3720, y := 290, r := 14, taken := false }

/-- A dead (not won) player in mid-air whose centre is on the goal. -/
def deadAtGoal : World :=
  { emptyLevel 3706 272 true false with goal := some levelGoal }

/-- A won (not dead) player in mid-air whose centre is on a hazard. -/
def wonAtHazard : World :=
  { emptyLevel 586 410 false true with hazards := [{ x := 600, y := 428, r := 14 }] }

/-- A dead player in mid-air whose centre is on an untaken coin. -/
def deadAtCoin : World :=
  { emptyLevel 206 292 true false with coins := [{ x := 220, y := 310, r := 8, taken := false }] }

/-- An alive player in mid-air whose centre is on the goal. -/
def aliveAtGoal : World :=
  { emptyLevel 3706 272 false false with goal := some levelGoal }

/-- An alive player in mid-air whose centre is on a hazard of radius 14. -/
def aliveAtHazard : World :=
  { emptyLevel 586 410 false false with hazards := [{ x := 600, y := 428, r := 14 }] }

/-- A player in mid-air in an empty level with both keys held, whose `vx` is
the double written `0.1`. -/
def bothHeld : World :=
  { player := { initialPlayer with vx := 3602879701896397 / 36028797018963968 },
    keys := { left := true, right := true, jump := false },
    platforms := [], coins := [], hazards := [], goal := none,
    camera := { x := 0, y := 0 }, msg := "", score := "" }

/-- A slab whose top `y` is the double written `99.2`. -/
def slab : Platform :=
  { x := 0, y := 6980579422424269 / 70368744177664, w := 540, h := 24 }

/-- A player of height 36 at rest whose `y` is the double written `63.2`, so that
its bottom edge is exactly on the top of `slab`, the only platform; no key held. -/
def onSlab : World :=
  { player := { initialPlayer with y := 4447304632028365 / 70368744177664 },
    keys := { left := false, right := false, jump := false },
    platforms := [slab], coins := [], hazards := [], goal := none,
    camera := { x := 0, y := 0 }, msg := "", score := "" }

/-- The standing player after it has turned left. -/
def facingLeft : World :=
  { standing with player := { standing.player with facing := -1 } }

/-! ## Lemmas on the stages of `update` -/

theorem clamp_ge (v lo hi : ℚ) : lo ≤ clamp v lo hi := by
  unfold clamp; exact le_max_left _ _

theorem clamp_le (v lo hi : ℚ) (h : lo ≤ hi) : clamp v lo hi ≤ hi := by
  unfold clamp; exact max_le h (min_le_left _ _)

theorem collectCoin_fst (pl : Player) (c : Coin) :
    (collectCoin pl c).1 =
      { pl with coins := pl.coins + (if picksUp pl c then 1 else 0) } := by
  unfold collectCoin picksUp
  cases c.taken <;> cases coinInRange pl c <;> simp

theorem collectCoin_snd (pl : Player) (c : Coin) :
    (collectCoin pl c).2 = if picksUp pl c then { c with taken := true } else c := by
  unfold collectCoin picksUp
  cases c.taken <;> cases coinInRange pl c <;> simp

theorem picksUp_coins (pl : Player) (n : Nat) :
    picksUp { pl with coins := n } = picksUp pl := by
  funext c
  simp [picksUp, coinInRange]

theorem collectCoins_fst (cs : List Coin) (pl : Player) :
    (collectCoins pl cs).1 =
      { pl with coins := pl.coins + (cs.filter (picksUp pl)).length } := by
  induction cs generalizing pl with
  | nil => simp [collectCoins]
  | cons c cs ih =>
    simp only [collectCoins, ih, collectCoin_fst, picksUp_coins, List.filter_cons]
    cases picksUp pl c
    · simp
    · simp; omega

theorem collectCoins_snd (cs : List Coin) (pl : Player) :
    (collectCoins pl cs).2 =
      cs.map (fun c => if picksUp pl c then { c with taken := true } else c) := by
  induction cs generalizing pl with
  | nil => simp [collectCoins]
  | cons c cs ih =>
    simp only [collectCoins, ih, collectCoin_snd, collectCoin_fst, picksUp_coins, List.map_cons]

theorem foldl_touchHazard (hs : List Hazard) (pl : Player) :
    hs.foldl touchHazard pl =
      { pl with dead := pl.dead || hs.any (hazardInRange pl) } := by
  induction hs generalizing pl with
  | nil => simp
  | cons h hs ih =>
    have hc : ∀ q : Player, q = touchHazard pl h → ∀ k : Hazard,
        hazardInRange q k = hazardInRange pl k := by
      intro q hq k
      subst hq
      unfold touchHazard
      split <;> simp [hazardInRange]
    simp only [List.foldl_cons, ih, List.any_cons, hc _ rfl]
    unfold touchHazard
    cases hazardInRange pl h <;> simp [Bool.or_assoc]

theorem checkHazards_eq (hs : List Hazard) (pl : Player) :
    checkHazards hs pl =
      { pl with dead := pl.dead || hs.any (hazardInRange pl) || decide (pl.y > 1000) } := by
  unfold checkHazards
  simp only [foldl_touchHazard]
  by_cases hy : pl.y > 1000 <;> simp [hy]

theorem hazardInRange_flags (pl : Player) (n : Nat) (d : Bool) :
    hazardInRange { pl with coins := n, dead := d } = hazardInRange pl := by
  funext h
  simp [hazardInRange]

theorem goalInRange_flags (pl : Player) (n : Nat) (d : Bool) :
    goalInRange { pl with coins := n, dead := d } = goalInRange pl := by
  funext g
  simp [goalInRange]

theorem update_player (viewW : ℚ) (s : World) :
    (update viewW s).player =
      { movedPlayer s with
        coins := (movedPlayer s).coins + (s.coins.filter (picksUp (movedPlayer s))).length,
        dead := (movedPlayer s).dead || hazardHit s,
        won := (movedPlayer s).won || goalHit s } := by
  unfold update
  simp only [collectCoins_fst, checkHazards_eq, hazardInRange_flags, goalInRange_flags]
  rw [← movedPlayer]
  unfold hazardHit goalHit
  cases hw : (movedPlayer s).won <;> cases hg : s.goal <;> simp [Bool.or_assoc]
  split <;> simp_all

theorem update_coins (viewW : ℚ) (s : World) :
    (update viewW s).coins =
      s.coins.map (fun c => if picksUp (movedPlayer s) c then { c with taken := true } else c) := by
  unfold update
  simp only [collectCoins_snd]
  rfl

theorem resolvePlatform_cases (pl : Player) (p : Platform) :
    resolvePlatform pl p = pl ∨
    resolvePlatform pl p = { pl with y := p.y - pl.h, vy := 0, grounded := true } ∨
    resolvePlatform pl p = { pl with y := p.y + p.h, vy := 0 } ∨
    ∃ x : ℚ, resolvePlatform pl p = { pl with x := x, vx := 0 } := by
  unfold resolvePlatform
  by_cases h0 : rectsOverlap pl p = true
  · by_cases h1 : pl.y - pl.vy + pl.h ≤ p.y ∧ pl.vy > 0
    · right; left; simp [h0, h1]
    · by_cases h2 : pl.y - pl.vy ≥ p.y + p.h ∧ pl.vy < 0
      · right; right; left; simp only [h0, h1, h2]; simp
      · right; right; right
        by_cases h3 : pl.vx > 0
        · exact ⟨p.x - pl.w, by simp only [h0, h1, h2, h3]; simp⟩
        · by_cases h4 : pl.vx < 0
          · exact ⟨p.x + p.w, by simp only [h0, h1, h2, h3, h4]; simp⟩
          · exact ⟨pl.x, by simp only [h0, h1, h2, h3, h4]; simp⟩
  · left; simp [h0]

theorem resolvePlatform_sameFixed (pl : Player) (p : Platform) :
    sameFixed pl (resolvePlatform pl p) := by
  unfold sameFixed
  rcases resolvePlatform_cases pl p with h | h | h | ⟨x, h⟩ <;> rw [h] <;> simp

theorem foldl_resolvePlatform_sameFixed (ps : List Platform) (pl : Player) :
    sameFixed pl (ps.foldl resolvePlatform pl) := by
  induction ps generalizing pl with
  | nil => simp [sameFixed]
  | cons p ps ih =>
    obtain ⟨h1, h2, h3, h4, h5⟩ := resolvePlatform_sameFixed pl p
    obtain ⟨k1, k2, k3, k4, k5⟩ := ih (resolvePlatform pl p)
    exact ⟨k1.trans h1, k2.trans h2, k3.trans h3, k4.trans h4, k5.trans h5⟩

theorem movedPlayer_sameFixed (s : World) : sameFixed s.player (movedPlayer s) := by
  obtain ⟨k1, k2, k3, k4, k5⟩ := foldl_resolvePlatform_sameFixed s.platforms
    { applyVelocity (applyGravity (applyInput s.keys s.player)) with grounded := false }
  unfold movedPlayer collidePlatforms
  refine ⟨k1.trans ?_, k2.trans ?_, k3.trans ?_, k4.trans ?_, k5.trans ?_⟩ <;>
    (unfold applyVelocity applyGravity applyInput
     cases s.keys.left <;> cases s.keys.right <;> simp)

theorem resolvePlatform_velOk (pl : Player) (p : Platform) (h : velOk pl) :
    velOk (resolvePlatform pl p) := by
  obtain ⟨h1, h2, h3, h4⟩ := h
  unfold velOk
  rcases resolvePlatform_cases pl p with h | h | h | ⟨x, h⟩ <;> rw [h]
  · exact ⟨h1, h2, h3, h4⟩
  · exact ⟨h1, h2, by norm_num, fun _ => rfl⟩
  · exact ⟨h1, h2, by norm_num, fun _ => rfl⟩
  · exact ⟨by norm_num, by norm_num, h3, h4⟩

theorem foldl_resolvePlatform_velOk (ps : List Platform) (pl : Player) (h : velOk pl) :
    velOk (ps.foldl resolvePlatform pl) := by
  induction ps generalizing pl with
  | nil => simpa using h
  | cons p ps ih => exact ih _ (resolvePlatform_velOk pl p h)

theorem applyInput_vx (k : Keys) (pl : Player) :
    -4 ≤ (applyInput k pl).vx ∧ (applyInput k pl).vx ≤ 4 := by
  have hm : MOVE_SPEED = 4 := by norm_num [MOVE_SPEED]
  unfold applyInput
  dsimp only
  rw [hm]
  exact ⟨clamp_ge _ _ _, clamp_le _ _ _ (by norm_num)⟩

theorem applyGravity_vy (pl : Player) : (applyGravity pl).vy ≤ 24 := by
  unfold applyGravity MAX_FALL
  dsimp only
  exact clamp_le _ _ _ (by norm_num)

theorem movedPlayer_velOk (s : World) : velOk (movedPlayer s) := by
  unfold movedPlayer collidePlatforms
  apply foldl_resolvePlatform_velOk
  obtain ⟨h1, h2⟩ := applyInput_vx s.keys s.player
  have h3 := applyGravity_vy (applyInput s.keys s.player)
  exact ⟨h1, h2, h3, by simp⟩

theorem buildLevel_coins (s : World) :
    (buildLevel s).coins =
      coinSpots.map (fun c => { x := c.1, y := c.2, r := 8, taken := false }) := by
  simp [buildLevel, addCoin, addPlatform, addHazard, setGoal, coinSpots, List.range,
    List.range.loop]

theorem buildLevel_player (s : World) :
    (buildLevel s).player =
      { s.player with x := 60, y := 0, vx := 0, vy := 0, grounded := false,
                      coins := 0, won := false, dead := false } := by
  simp [buildLevel, addCoin, addPlatform, addHazard, setGoal, coinSpots, List.range,
    List.range.loop]

theorem picksUp_untaken (pl : Player) (c : Coin) (h : picksUp pl c = true) :
    c.taken = false := by
  unfold picksUp at h
  cases ht : c.taken
  · rfl
  · simp [ht] at h

theorem takenCount_map_picksUp (pl : Player) (cs : List Coin) :
    takenCount (cs.map (fun c => if picksUp pl c then { c with taken := true } else c)) =
      takenCount cs + (cs.filter (picksUp pl)).length := by
  induction cs with
  | nil => simp [takenCount]
  | cons c cs ih =>
    unfold takenCount at ih ⊢
    rw [List.map_cons, List.filter_cons, List.filter_cons, List.filter_cons]
    cases hp : picksUp pl c
    · cases ht : c.taken
      · simp only [Bool.false_eq_true, if_false, ht, ih]
      · simp only [Bool.false_eq_true, if_false, if_true, ht, ih, List.length_cons]
        omega
    · have ht := picksUp_untaken pl c hp
      simp only [if_true, ht, Bool.false_eq_true, if_false, ih, List.length_cons]
      omega

theorem buildLevel_coinInv (s : World) : coinInv (buildLevel s) := by
  unfold coinInv
  rw [buildLevel_coins, buildLevel_player]
  simp [takenCount, coinSpots]

theorem update_coinInv (viewW : ℚ) (s : World) (h : coinInv s) : coinInv (update viewW s) := by
  unfold coinInv at h ⊢
  rw [update_player, update_coins, takenCount_map_picksUp, ← h]
  simp [(movedPlayer_sameFixed s).2.2.1]

theorem tryJump_coinInv (s : World) (h : coinInv s) : coinInv (tryJump s) := by
  unfold coinInv tryJump at *
  split <;> simpa using h

theorem pointerdown_coinInv (s : World) (h : coinInv s) : coinInv (pointerdown s) := by
  unfold pointerdown
  split
  · exact buildLevel_coinInv s
  · exact h

theorem update_dead_eq (viewW : ℚ) (s : World) :
    (update viewW s).player.dead = (s.player.dead || hazardHit s) := by
  rw [update_player]
  simp [(movedPlayer_sameFixed s).2.2.2.2]

theorem update_won_eq (viewW : ℚ) (s : World) :
    (update viewW s).player.won = (s.player.won || goalHit s) := by
  rw [update_player]
  simp [(movedPlayer_sameFixed s).2.2.2.1]

theorem update_position (viewW : ℚ) (s : World) :
    (update viewW s).player.x = (movedPlayer s).x ∧
    (update viewW s).player.y = (movedPlayer s).y ∧
    (update viewW s).player.w = (movedPlayer s).w ∧
    (update viewW s).player.h = (movedPlayer s).h := by
  rw [update_player]
  exact ⟨rfl, rfl, rfl, rfl⟩

theorem update_goal (viewW : ℚ) (s : World) : (update viewW s).goal = s.goal := rfl

theorem buildLevel_goal (s : World) : (buildLevel s).goal = some levelGoal := by
  simp [buildLevel, addCoin, addPlatform, addHazard, setGoal, coinSpots, List.range,
    List.range.loop, levelGoal]

theorem tryJump_goal (s : World) : (tryJump s).goal = s.goal := by
  unfold tryJump
  split <;> rfl

theorem hazardInRange_iff (p : Player) (h : Hazard) :
    hazardInRange p h = true ↔
      (p.x + p.w / 2 - h.x) ^ 2 + (p.y + p.h / 2 - h.y) ^ 2 < (h.r + 12) ^ 2 := by
  simp [hazardInRange, sq]

theorem goalInRange_iff (p : Player) (g : Goal) :
    goalInRange p g = true ↔
      (p.x + p.w / 2 - g.x) ^ 2 + (p.y + p.h / 2 - g.y) ^ 2 < (g.r + 14) ^ 2 := by
  simp [goalInRange, sq]

theorem hazardHit_iff (s : World) :
    hazardHit s = true ↔
      (∃ h ∈ s.hazards,
        ((movedPlayer s).x + (movedPlayer s).w / 2 - h.x) ^ 2 +
          ((movedPlayer s).y + (movedPlayer s).h / 2 - h.y) ^ 2 < (h.r + 12) ^ 2) ∨
      (movedPlayer s).y > 1000 := by
  unfold hazardHit
  simp only [Bool.or_eq_true, List.any_eq_true, decide_eq_true_eq, hazardInRange_iff]

theorem reachable_goal (s : World) (h : Reachable s) : s.goal = some levelGoal := by
  induction h with
  | build s => exact buildLevel_goal s
  | frame viewW s _ ih => exact ih
  | jump s _ ih => rw [tryJump_goal]; exact ih
  | left s down _ ih => exact ih
  | right s down _ ih => exact ih
  | restart s _ ih =>
    unfold pointerdown
    split
    · exact buildLevel_goal s
    · exact ih

theorem buildLevel_eq (s : World) :
    buildLevel s =
      { s with
        platforms := levelPlatforms, coins := levelCoins, hazards := levelHazards,
        goal := some levelGoal,
        player := { s.player with x := 60, y := 0, vx := 0, vy := 0, grounded := false,
                                  coins := 0, won := false, dead := false } } := by
  simp [buildLevel, addCoin, addPlatform, addHazard, setGoal, coinSpots, List.range,
    List.range.loop, levelPlatforms, levelCoins, levelHazards, levelGoal]
  norm_num

theorem update_camera (viewW : ℚ) (s : World) :
    (update viewW s).camera =
      { x := clamp ((update viewW s).player.x + (update viewW s).player.w / 2 - viewW / 2) 0 4000,
        y := 0 } := rfl

theorem update_motion (viewW : ℚ) (s : World) :
    (update viewW s).player.vx = (movedPlayer s).vx ∧
    (update viewW s).player.vy = (movedPlayer s).vy ∧
    (update viewW s).player.grounded = (movedPlayer s).grounded ∧
    (update viewW s).player.facing = (movedPlayer s).facing := by
  rw [update_player]
  exact ⟨rfl, rfl, rfl, rfl⟩

theorem movedPlayer_single (s : World) (p : Platform) (hp : s.platforms = [p]) :
    movedPlayer s = resolvePlatform { integrated s with grounded := false } p := by
  unfold movedPlayer collidePlatforms integrated
  rw [hp]
  rfl

theorem movedPlayer_nil (s : World) (hp : s.platforms = []) :
    movedPlayer s = { integrated s with grounded := false } := by
  unfold movedPlayer collidePlatforms integrated
  rw [hp]
  rfl

theorem rectsOverlap_iff (a : Player) (b : Platform) :
    rectsOverlap a b = true ↔
      a.x < b.x + b.w ∧ a.x + a.w > b.x ∧ a.y < b.y + b.h ∧ a.y + a.h > b.y := by
  simp [rectsOverlap, and_assoc]

theorem resolvePlatform_apart (pl : Player) (p : Platform) (h : rectsOverlap pl p = false) :
    resolvePlatform pl p = pl := by
  simp [resolvePlatform, h]

theorem resolvePlatform_land (pl : Player) (p : Platform) (h : rectsOverlap pl p = true)
    (h1 : pl.y - pl.vy + pl.h ≤ p.y ∧ pl.vy > 0) :
    resolvePlatform pl p = { pl with y := p.y - pl.h, vy := 0, grounded := true } := by
  simp only [resolvePlatform, h, h1]
  simp

theorem resolvePlatform_ceiling (pl : Player) (p : Platform) (h : rectsOverlap pl p = true)
    (h1 : ¬ (pl.y - pl.vy + pl.h ≤ p.y ∧ pl.vy > 0))
    (h2 : pl.y - pl.vy ≥ p.y + p.h ∧ pl.vy < 0) :
    resolvePlatform pl p = { pl with y := p.y + p.h, vy := 0 } := by
  simp only [resolvePlatform, h, h1, h2]
  simp

theorem resolvePlatform_side (pl : Player) (p : Platform) (h : rectsOverlap pl p = true)
    (h1 : ¬ (pl.y - pl.vy + pl.h ≤ p.y ∧ pl.vy > 0))
    (h2 : ¬ (pl.y - pl.vy ≥ p.y + p.h ∧ pl.vy < 0)) :
    resolvePlatform pl p =
      { pl with
        x := if pl.vx > 0 then p.x - pl.w else if pl.vx < 0 then p.x + p.w else pl.x,
        vx := 0 } := by
  simp only [resolvePlatform, h, h1, h2]
  by_cases h3 : pl.vx > 0
  · simp [h3]
  · by_cases h4 : pl.vx < 0
    · simp [h3, h4]
    · simp [h3, h4]

theorem update_player_single (viewW : ℚ) (s : World) (p : Platform) (hp : s.platforms = [p]) :
    (update viewW s).player.x = (resolvePlatform { integrated s with grounded := false } p).x ∧
    (update viewW s).player.y = (resolvePlatform { integrated s with grounded := false } p).y ∧
    (update viewW s).player.vx = (resolvePlatform { integrated s with grounded := false } p).vx ∧
    (update viewW s).player.vy = (resolvePlatform { integrated s with grounded := false } p).vy ∧
    (update viewW s).player.grounded =
      (resolvePlatform { integrated s with grounded := false } p).grounded := by
  obtain ⟨hx, hy, _, _⟩ := update_position viewW s
  obtain ⟨hvx, hvy, hg, _⟩ := update_motion viewW s
  rw [hx, hy, hvx, hvy, hg, movedPlayer_single s p hp]
  exact ⟨rfl, rfl, rfl, rfl, rfl⟩

theorem integrated_size (s : World) :
    (integrated s).w = s.player.w ∧ (integrated s).h = s.player.h := by
  unfold integrated applyVelocity applyGravity applyInput
  cases s.keys.left <;> cases s.keys.right <;> simp

theorem integrated_fall (s : World) :
    (integrated s).y = s.player.y + (integrated s).vy ∧ (integrated s).vy ≤ 24 ∧
      (integrated s).vy = clamp (s.player.vy + 0.9) (-999) 24 ∧
      (integrated s).x = s.player.x + (integrated s).vx := by
  have hg : GRAVITY = 0.9 := rfl
  have hm : MAX_FALL = 24 := rfl
  have h := applyGravity_vy (applyInput s.keys s.player)
  unfold integrated applyVelocity
  refine ⟨?_, h, ?_, ?_⟩
  · unfold applyGravity applyInput
    cases s.keys.left <;> cases s.keys.right <;> simp
  · unfold applyGravity applyInput
    rw [hg, hm]
    cases s.keys.left <;> cases s.keys.right <;> simp
  · unfold applyGravity applyInput
    cases s.keys.left <;> cases s.keys.right <;> simp

theorem update_size (viewW : ℚ) (s : World) :
    (update viewW s).player.w = s.player.w ∧ (update viewW s).player.h = s.player.h := by
  obtain ⟨_, _, hw, hh⟩ := update_position viewW s
  obtain ⟨kw, kh, _⟩ := movedPlayer_sameFixed s
  exact ⟨hw.trans kw, hh.trans kh⟩

theorem foldl_resolvePlatform_apart (ps : List Platform) (pl : Player)
    (h : ∀ p ∈ ps, rectsOverlap pl p = false) : ps.foldl resolvePlatform pl = pl := by
  induction ps with
  | nil => rfl
  | cons p ps ih =>
    rw [List.foldl_cons, resolvePlatform_apart pl p (h p (List.mem_cons_self p ps))]
    exact ih (fun q hq => h q (List.mem_cons_of_mem p hq))

theorem levelPlatforms_tail_right : ∀ p ∈ levelPlatforms.tail, (88 : ℚ) ≤ p.x := by
  simp [levelPlatforms]
  norm_num

theorem rectsOverlap_left_of (pl : Player) (p : Platform) (h : pl.x + pl.w ≤ p.x) :
    rectsOverlap pl p = false := by
  cases hb : rectsOverlap pl p
  · rfl
  · have := ((rectsOverlap_iff pl p).mp hb).2.1
    exact absurd this (not_lt.mpr h)

theorem resolvePlatform_still (pl : Player) (p : Platform) (h : pl.vx = 0) :
    (resolvePlatform pl p).x = pl.x ∧ (resolvePlatform pl p).vx = 0 := by
  cases ho : rectsOverlap pl p
  · rw [resolvePlatform_apart pl p ho]
    exact ⟨rfl, h⟩
  · by_cases h1 : pl.y - pl.vy + pl.h ≤ p.y ∧ pl.vy > 0
    · rw [resolvePlatform_land pl p ho h1]
      exact ⟨rfl, h⟩
    · by_cases h2 : pl.y - pl.vy ≥ p.y + p.h ∧ pl.vy < 0
      · rw [resolvePlatform_ceiling pl p ho h1 h2]
        exact ⟨rfl, h⟩
      · rw [resolvePlatform_side pl p ho h1 h2]
        refine ⟨?_, rfl⟩
        show (if pl.vx > 0 then _ else _) = _
        rw [h]
        simp

theorem integrated_spawned (t : World) (h : Spawned t) :
    (integrated t).x = 60 ∧ (integrated t).vx = 0 ∧ (integrated t).w = 28 ∧
      (integrated t).h = 36 := by
  obtain ⟨_, hl, hr, hx, hvx, hw, hh⟩ := h
  obtain ⟨iw, ih⟩ := integrated_size t
  obtain ⟨_, _, _, ix⟩ := integrated_fall t
  have hv : (integrated t).vx = 0 := by
    unfold integrated applyVelocity applyGravity applyInput
    norm_num [hl, hr, hvx, clamp, MOVE_SPEED]
  exact ⟨by rw [ix, hx, hv]; norm_num, hv, iw.trans hw, ih.trans hh⟩

theorem movedPlayer_spawned (t : World) (h : Spawned t) :
    movedPlayer t = resolvePlatform { integrated t with grounded := false } ground0 := by
  obtain ⟨ix, ivx, iw, _⟩ := integrated_spawned t h
  have hps : t.platforms = ground0 :: levelPlatforms.tail := h.1
  have hm : movedPlayer t = t.platforms.foldl resolvePlatform
      { integrated t with grounded := false } := rfl
  rw [hm, hps, List.foldl_cons]
  apply foldl_resolvePlatform_apart
  intro p hp
  apply rectsOverlap_left_of
  obtain ⟨kx, _⟩ := resolvePlatform_still { integrated t with grounded := false } ground0 ivx
  obtain ⟨kw, _⟩ := resolvePlatform_sameFixed { integrated t with grounded := false } ground0
  rw [kx, kw]
  show (integrated t).x + (integrated t).w ≤ p.x
  rw [ix, iw]
  have := levelPlatforms_tail_right p hp
  linarith

theorem update_spawned (viewW : ℚ) (t : World) (h : Spawned t) : Spawned (update viewW t) := by
  obtain ⟨ix, ivx, _, _⟩ := integrated_spawned t h
  obtain ⟨hx, _, _, _⟩ := update_position viewW t
  obtain ⟨hvx, _, _, _⟩ := update_motion viewW t
  obtain ⟨hw, hh⟩ := update_size viewW t
  obtain ⟨kx, kvx⟩ := resolvePlatform_still { integrated t with grounded := false } ground0 ivx
  refine ⟨h.1, h.2.1, h.2.2.1, ?_, ?_, hw.trans h.2.2.2.2.2.1, hh.trans h.2.2.2.2.2.2⟩
  · rw [hx, movedPlayer_spawned t h, kx]
    exact ix
  · rw [hvx, movedPlayer_spawned t h, kvx]

theorem update_fall_free (viewW : ℚ) (t : World) (h : Spawned t)
    (hfree : t.player.y + clamp (t.player.vy + 0.9) (-999) 24 + 36 ≤ 420) :
    (update viewW t).player.y = t.player.y + clamp (t.player.vy + 0.9) (-999) 24 ∧
      (update viewW t).player.vy = clamp (t.player.vy + 0.9) (-999) 24 := by
  obtain ⟨_, _, _, ih⟩ := integrated_spawned t h
  obtain ⟨iy, _, ivy, _⟩ := integrated_fall t
  obtain ⟨_, hy, _, _⟩ := update_position viewW t
  obtain ⟨_, hvy, _, _⟩ := update_motion viewW t
  have ho : rectsOverlap { integrated t with grounded := false } ground0 = false := by
    cases hb : rectsOverlap { integrated t with grounded := false } ground0
    · rfl
    · have h4 : (integrated t).y + (integrated t).h > 420 :=
        ((rectsOverlap_iff { integrated t with grounded := false } ground0).mp hb).2.2.2
      rw [ih, iy, ivy] at h4
      exact absurd h4 (not_lt.mpr hfree)
  rw [hy, hvy, movedPlayer_spawned t h, resolvePlatform_apart _ ground0 ho]
  show (integrated t).y = _ ∧ (integrated t).vy = _
  rw [iy, ivy]
  exact ⟨rfl, rfl⟩

theorem update_fall_land (viewW : ℚ) (t : World) (h : Spawned t)
    (h1 : t.player.y + clamp (t.player.vy + 0.9) (-999) 24 + 36 > 420)
    (h2 : t.player.y + clamp (t.player.vy + 0.9) (-999) 24 < 444)
    (h3 : t.player.y + 36 ≤ 420)
    (h4 : clamp (t.player.vy + 0.9) (-999) 24 > 0) :
    (update viewW t).player.y = 384 ∧ (update viewW t).player.vy = 0 ∧
      (update viewW t).player.grounded = true := by
  obtain ⟨ix, _, iw, ih⟩ := integrated_spawned t h
  obtain ⟨iy, _, ivy, _⟩ := integrated_fall t
  obtain ⟨_, hy, _, _⟩ := update_position viewW t
  obtain ⟨_, hvy, hg, _⟩ := update_motion viewW t
  have ho : rectsOverlap { integrated t with grounded := false } ground0 = true := by
    rw [rectsOverlap_iff]
    show (integrated t).x < 0 + 540 ∧ (integrated t).x + (integrated t).w > 0 ∧
      (integrated t).y < 420 + 24 ∧ (integrated t).y + (integrated t).h > 420
    rw [ix, iw, ih, iy, ivy]
    refine ⟨by norm_num, by norm_num, by linarith, h1⟩
  have hl : (integrated t).y - (integrated t).vy + (integrated t).h ≤ 420 ∧
      (integrated t).vy > 0 := by
    rw [ih, iy, ivy]
    exact ⟨by linarith, h4⟩
  rw [hy, hvy, hg, movedPlayer_spawned t h, resolvePlatform_land _ ground0 ho hl]
  refine ⟨?_, rfl, rfl⟩
  show 420 - (integrated t).h = 384
  rw [ih]
  norm_num

theorem falling_step (viewW : ℚ) (k : ℕ) (t : World) (h : Falling k t) :
    Falling (k + 1) (update viewW t) := by
  obtain ⟨hs, hk⟩ := h
  refine ⟨update_spawned viewW t hs, ?_⟩
  by_cases h28 : k < 28
  · rw [if_pos (by omega)] at hk
    rw [if_pos (by omega)]
    obtain ⟨hy, hvy⟩ := hk
    have hfree : t.player.y + clamp (t.player.vy + 0.9) (-999) 24 + 36 ≤ 420 := by
      rw [hy, hvy]
      interval_cases k <;> norm_num [fallY, fallVy, clamp]
    obtain ⟨uy, uvy⟩ := update_fall_free viewW t hs hfree
    rw [uy, uvy, hy, hvy]
    interval_cases k <;> norm_num [fallY, fallVy, clamp]
  · by_cases h29 : k < 29
    · have hk28 : k = 28 := by omega
      subst hk28
      rw [if_pos (by omega)] at hk
      rw [if_neg (by omega)]
      obtain ⟨hy, hvy⟩ := hk
      apply update_fall_land viewW t hs <;> norm_num [hy, hvy, fallY, fallVy, clamp]
    · rw [if_neg h29] at hk
      rw [if_neg (by omega)]
      obtain ⟨hy, hvy, _⟩ := hk
      apply update_fall_land viewW t hs <;> norm_num [hy, hvy, clamp]

theorem falling_frames (viewWs : List ℚ) (k : ℕ) (t : World) (h : Falling k t) :
    Falling (k + viewWs.length) (frames viewWs t) := by
  induction viewWs generalizing k t with
  | nil => exact h
  | cons viewW viewWs ih =>
    have h1 := ih (k + 1) (update viewW t) (falling_step viewW k t h)
    have e : k + (viewW :: viewWs).length = k + 1 + viewWs.length := by
      rw [List.length_cons]; omega
    rw [e]
    exact h1

theorem buildLevel_falling (s : World) (hw : s.player.w = 28) (hh : s.player.h = 36)
    (hl : s.keys.left = false) (hr : s.keys.right = false) : Falling 0 (buildLevel s) := by
  rw [buildLevel_eq]
  refine ⟨⟨rfl, hl, hr, rfl, rfl, hw, hh⟩, ?_⟩
  rw [if_pos (by norm_num)]
  refine ⟨?_, ?_⟩
  · show (0 : ℚ) = fallY 0
    norm_num [fallY]
  · show (0 : ℚ) = fallVy 0
    norm_num [fallVy]

/-- In the exact-arithmetic embedding the landing branch does keep a player
that starts above a single platform `p` (`p.h ≥ 0`, player height 36) from
passing through it: there `(y + vy) - vy + h = y + h`, so the reconstructed
previous bottom edge is at or above the platform top.  In doubles the
reconstruction rounds and this argument is lost (`Binary64.onSlab_update64`). -/
theorem no_fall_through_exact (viewW : ℚ) (s : World) (p : Platform)
    (hp : s.platforms = [p]) (hthick : 0 ≤ p.h) (h36 : s.player.h = 36)
    (habove : s.player.y + s.player.h ≤ p.y) :
    (update viewW s).player.y + (update viewW s).player.h ≤ p.y ∨
      (update viewW s).player.x ≥ p.x + p.w ∨
      (update viewW s).player.x + (update viewW s).player.w ≤ p.x := by
  obtain ⟨hx, hy, _, _, _⟩ := update_player_single viewW s p hp
  obtain ⟨hw, hh⟩ := update_size viewW s
  obtain ⟨iy, ivy, _, _⟩ := integrated_fall s
  obtain ⟨iw, ih⟩ := integrated_size s
  rw [hx, hy, hw, hh, h36]
  rw [h36] at habove ih
  cases ho : rectsOverlap { integrated s with grounded := false } p
  · rw [resolvePlatform_apart _ p ho]
    show (integrated s).y + 36 ≤ p.y ∨ (integrated s).x ≥ p.x + p.w ∨
      (integrated s).x + s.player.w ≤ p.x
    have hn : ¬ ((integrated s).x < p.x + p.w ∧ (integrated s).x + (integrated s).w > p.x ∧
        (integrated s).y < p.y + p.h ∧ (integrated s).y + (integrated s).h > p.y) := by
      intro hc
      have := (rectsOverlap_iff { integrated s with grounded := false } p).mpr hc
      rw [ho] at this
      exact Bool.false_ne_true this
    rw [iw, ih] at hn
    by_contra hcon
    push_neg at hcon
    obtain ⟨c1, c2, c3⟩ := hcon
    apply hn
    refine ⟨c2, c3, ?_, c1⟩
    linarith
  · have ho' := (rectsOverlap_iff { integrated s with grounded := false } p).mp ho
    have h4 : (integrated s).y + (integrated s).h > p.y := ho'.2.2.2
    rw [ih] at h4
    have hpos : (integrated s).vy > 0 := by linarith
    have hland : (integrated s).y - (integrated s).vy + (integrated s).h ≤ p.y ∧
        (integrated s).vy > 0 := by
      refine ⟨?_, hpos⟩
      rw [ih, iy]
      linarith
    rw [resolvePlatform_land _ p ho hland]
    left
    show p.y - (integrated s).h + 36 ≤ p.y
    rw [ih]
    linarith

/-! ## Lemmas on the double-precision embedding -/

namespace Binary64

theorem roundEven_near (x : ℚ) (m : ℤ) (h1 : (m : ℚ) - 1 / 2 < x) (h2 : x < (m : ℚ) + 1 / 2) :
    roundEven x = m := by
  unfold roundEven
  by_cases hx : (m : ℚ) ≤ x
  · have hf : ⌊x⌋ = m := Int.floor_eq_iff.mpr ⟨hx, by linarith⟩
    rw [hf, if_pos (by linarith)]
  · have hx' : x < m := not_le.mp hx
    have hf : ⌊x⌋ = m - 1 :=
      Int.floor_eq_iff.mpr ⟨by push_cast; linarith, by push_cast; linarith⟩
    rw [hf, if_neg (by push_cast; linarith), if_pos (by push_cast; linarith)]
    ring

theorem roundEven_tie_odd (x : ℚ) (f : ℤ) (h : x = (f : ℚ) + 1 / 2) (hodd : f % 2 = 1) :
    roundEven x = f + 1 := by
  have hf : ⌊x⌋ = f := Int.floor_eq_iff.mpr ⟨by linarith, by linarith⟩
  unfold roundEven
  rw [hf, if_neg (by linarith), if_neg (by linarith), if_neg (by omega)]

theorem ulpExp_eq (q : ℚ) (e : ℤ) (he : -1074 ≤ e) (hlo : (2 : ℚ) ^ (e + 52) ≤ |q|)
    (hhi : |q| < (2 : ℚ) ^ (e + 53)) : ulpExp q = e := by
  have hpos : (0 : ℚ) < |q| := lt_of_lt_of_le (by positivity) hlo
  have h1 : e + 52 ≤ Int.log 2 |q| :=
    (Int.zpow_le_iff_le_log (by norm_num) hpos).mp (by exact_mod_cast hlo)
  have h2 : Int.log 2 |q| < e + 53 :=
    (Int.lt_zpow_iff_log_lt (by norm_num) hpos).mp (by exact_mod_cast hhi)
  unfold ulpExp
  have : Int.log 2 |q| - 52 = e := by omega
  rw [this, max_eq_left he]

theorem fl_pos (q : ℚ) (e m : ℤ) (he : -1074 ≤ e) (hlo : (2 : ℚ) ^ (e + 52) ≤ q)
    (hhi : q < (2 : ℚ) ^ (e + 53)) (h1 : (m : ℚ) - 1 / 2 < q / 2 ^ e)
    (h2 : q / 2 ^ e < (m : ℚ) + 1 / 2) : fl q = m * 2 ^ e := by
  have hq : 0 < q := lt_of_lt_of_le (by positivity) hlo
  unfold fl
  rw [ulpExp_eq q e he (by rwa [abs_of_pos hq]) (by rwa [abs_of_pos hq]),
    roundEven_near _ m h1 h2]

theorem fl_neg (q : ℚ) (e m : ℤ) (he : -1074 ≤ e) (hlo : (2 : ℚ) ^ (e + 52) ≤ -q)
    (hhi : -q < (2 : ℚ) ^ (e + 53)) (h1 : (m : ℚ) - 1 / 2 < q / 2 ^ e)
    (h2 : q / 2 ^ e < (m : ℚ) + 1 / 2) : fl q = m * 2 ^ e := by
  have hq : q < 0 := by
    have : (0 : ℚ) < -q := lt_of_lt_of_le (by positivity) hlo
    linarith
  unfold fl
  rw [ulpExp_eq q e he (by rwa [abs_of_neg hq]) (by rwa [abs_of_neg hq]),
    roundEven_near _ m h1 h2]

theorem fl_pos_tie_odd (q : ℚ) (e f : ℤ) (he : -1074 ≤ e) (hlo : (2 : ℚ) ^ (e + 52) ≤ q)
    (hhi : q < (2 : ℚ) ^ (e + 53)) (h : q / 2 ^ e = (f : ℚ) + 1 / 2) (hodd : f % 2 = 1) :
    fl q = ((f + 1 : ℤ) : ℚ) * 2 ^ e := by
  have hq : 0 < q := lt_of_lt_of_le (by positivity) hlo
  unfold fl
  rw [ulpExp_eq q e he (by rwa [abs_of_pos hq]) (by rwa [abs_of_pos hq]),
    roundEven_tie_odd _ f h hodd]

theorem fl_zero : fl 0 = 0 := by
  unfold fl
  simp [roundEven]

theorem collectCoin_motion64 (pl : Player) (c : Coin) :
    sameMotion pl (collectCoin pl c).1 := by
  unfold collectCoin sameMotion
  cases c.taken <;> cases coinInRange pl c <;> simp

theorem sameMotion_trans (p q r : Player) (h1 : sameMotion p q) (h2 : sameMotion q r) :
    sameMotion p r := by
  obtain ⟨a1, a2, a3, a4, a5, a6, a7, a8⟩ := h1
  obtain ⟨b1, b2, b3, b4, b5, b6, b7, b8⟩ := h2
  exact ⟨b1.trans a1, b2.trans a2, b3.trans a3, b4.trans a4, b5.trans a5, b6.trans a6,
    b7.trans a7, b8.trans a8⟩

theorem sameMotion_refl (p : Player) : sameMotion p p :=
  ⟨rfl, rfl, rfl, rfl, rfl, rfl, rfl, rfl⟩

theorem collectCoins_motion64 (cs : List Coin) (pl : Player) :
    sameMotion pl (collectCoins pl cs).1 := by
  induction cs generalizing pl with
  | nil => exact sameMotion_refl pl
  | cons c cs ih =>
    exact sameMotion_trans _ _ _ (collectCoin_motion64 pl c) (ih (collectCoin pl c).1)

theorem touchHazard_motion64 (pl : Player) (h : Hazard) : sameMotion pl (touchHazard pl h) := by
  unfold touchHazard sameMotion
  cases hazardInRange pl h <;> simp

theorem foldl_touchHazard_motion64 (hs : List Hazard) (pl : Player) :
    sameMotion pl (hs.foldl touchHazard pl) := by
  induction hs generalizing pl with
  | nil => exact sameMotion_refl pl
  | cons h hs ih =>
    exact sameMotion_trans _ _ _ (touchHazard_motion64 pl h) (ih (touchHazard pl h))

theorem checkHazards_motion64 (hs : List Hazard) (pl : Player) :
    sameMotion pl (checkHazards hs pl) := by
  have h := foldl_touchHazard_motion64 hs pl
  unfold checkHazards
  dsimp only
  split
  · exact sameMotion_trans _ _ _ h (sameMotion_refl _)
  · exact h

theorem update_motion64 (viewW : ℚ) (s : World) :
    sameMotion (movedPlayer s) (update viewW s).player := by
  have h1 := collectCoins_motion64 s.coins (movedPlayer s)
  have h2 := checkHazards_motion64 s.hazards (collectCoins (movedPlayer s) s.coins).1
  have h3 := sameMotion_trans _ _ _ h1 h2
  unfold update
  dsimp only
  split
  · exact sameMotion_trans _ _ _ h3 (sameMotion_refl _)
  · exact h3

theorem movedPlayer64_nil (s : World) (hp : s.platforms = []) :
    movedPlayer s = { integrated s with grounded := false } := by
  unfold movedPlayer collidePlatforms
  rw [hp]
  rfl

theorem integrated64_fields (s : World) :
    (integrated s).vx =
      clamp
        (if s.keys.left && !s.keys.right then fsub s.player.vx (fl 0.7)
         else if s.keys.right && !s.keys.left then fadd s.player.vx (fl 0.7)
         else if s.keys.left && s.keys.right then fadd (fsub s.player.vx (fl 0.7)) (fl 0.7)
         else fmul s.player.vx (fl 0.85)) (-4) 4 ∧
    (integrated s).vy = clamp (fadd s.player.vy (fl 0.9)) (-999) 24 ∧
    (integrated s).x = fadd s.player.x (integrated s).vx ∧
    (integrated s).y = fadd s.player.y (integrated s).vy ∧
    (integrated s).w = s.player.w ∧ (integrated s).h = s.player.h ∧
    (integrated s).facing =
      (if s.keys.right then 1 else if s.keys.left then -1 else s.player.facing) := by
  have hm : MOVE_SPEED = 4 := by norm_num [MOVE_SPEED]
  have hf : MAX_FALL = 24 := rfl
  have hg : GRAVITY = fl 0.9 := rfl
  have hfr : FRICTION = fl 0.85 := rfl
  unfold integrated applyVelocity applyGravity applyInput
  rw [hm, hf, hg, hfr]
  cases s.keys.left <;> cases s.keys.right <;> simp

theorem update_free64 (viewW : ℚ) (s : World) (hp : s.platforms = []) :
    (update viewW s).player.vx =
      clamp
        (if s.keys.left && !s.keys.right then fsub s.player.vx (fl 0.7)
         else if s.keys.right && !s.keys.left then fadd s.player.vx (fl 0.7)
         else if s.keys.left && s.keys.right then fadd (fsub s.player.vx (fl 0.7)) (fl 0.7)
         else fmul s.player.vx (fl 0.85)) (-4) 4 ∧
    (update viewW s).player.vy = clamp (fadd s.player.vy (fl 0.9)) (-999) 24 ∧
    (update viewW s).player.x = fadd s.player.x (update viewW s).player.vx ∧
    (update viewW s).player.y = fadd s.player.y (update viewW s).player.vy ∧
    (update viewW s).player.grounded = false ∧
    (update viewW s).player.facing =
      (if s.keys.right then 1 else if s.keys.left then -1 else s.player.facing) := by
  obtain ⟨mx, my, _, _, mvx, mvy, mg, mf⟩ := update_motion64 viewW s
  obtain ⟨ivx, ivy, ix, iy, _, _, ifc⟩ := integrated64_fields s
  rw [mx, my, mvx, mvy, mg, mf, movedPlayer64_nil s hp]
  exact ⟨ivx, ivy, ix, iy, rfl, ifc⟩

theorem fl_seven_tenths : fl 0.7 = 3152519739159347 / 4503599627370496 := by
  rw [fl_pos 0.7 (-53) 6305039478318694 (by norm_num) (by norm_num) (by norm_num)
    (by norm_num) (by norm_num)]
  norm_num

theorem fl_nine_tenths : fl 0.9 = 8106479329266893 / 9007199254740992 := by
  rw [fl_pos 0.9 (-53) 8106479329266893 (by norm_num) (by norm_num) (by norm_num)
    (by norm_num) (by norm_num)]
  norm_num

theorem fl_one_tenth : fl 0.1 = 3602879701896397 / 36028797018963968 := by
  rw [fl_pos 0.1 (-56) 7205759403792794 (by norm_num) (by norm_num) (by norm_num)
    (by norm_num) (by norm_num)]
  norm_num

theorem bothHeld_vx64 :
    (update 800 bothHeld).player.vx = 900719925474099 / 9007199254740992 := by
  have e : (update 800 bothHeld).player.vx =
      clamp (fl (fl (3602879701896397 / 36028797018963968 - fl 0.7) + fl 0.7)) (-4) 4 :=
    (update_free64 800 bothHeld rfl).1
  have h1 : fl ((3602879701896397 / 36028797018963968 : ℚ) -
      3152519739159347 / 4503599627370496) = -5404319552844595 / 9007199254740992 := by
    rw [fl_neg _ (-53) (-5404319552844595) (by norm_num) (by norm_num) (by norm_num)
      (by norm_num) (by norm_num)]
    norm_num
  have h2 : fl ((-5404319552844595 / 9007199254740992 : ℚ) +
      3152519739159347 / 4503599627370496) = 900719925474099 / 9007199254740992 := by
    rw [fl_pos _ (-56) 7205759403792792 (by norm_num) (by norm_num) (by norm_num)
      (by norm_num) (by norm_num)]
    norm_num
  rw [e, fl_seven_tenths, h1, h2]
  norm_num [clamp]

theorem movedPlayer64_single (s : World) (p : Platform) (hp : s.platforms = [p]) :
    movedPlayer s = resolvePlatform { integrated s with grounded := false } p := by
  unfold movedPlayer collidePlatforms
  rw [hp]
  rfl

theorem rectsOverlap64_iff (a : Player) (b : Platform) :
    rectsOverlap a b = true ↔
      a.x < fadd b.x b.w ∧ fadd a.x a.w > b.x ∧ a.y < fadd b.y b.h ∧ fadd a.y a.h > b.y := by
  simp [rectsOverlap, and_assoc]

theorem resolvePlatform_side64 (pl : Player) (p : Platform) (h : rectsOverlap pl p = true)
    (h1 : ¬ (fadd (fsub pl.y pl.vy) pl.h ≤ p.y ∧ pl.vy > 0))
    (h2 : ¬ (fsub pl.y pl.vy ≥ fadd p.y p.h ∧ pl.vy < 0)) (h3 : pl.vx = 0) :
    resolvePlatform pl p = { pl with vx := 0 } := by
  simp only [resolvePlatform, h, h1, h2]
  simp [h3]

theorem fl_double_nine_tenths :
    fl (8106479329266893 / 9007199254740992) = 8106479329266893 / 9007199254740992 := by
  rw [fl_pos _ (-53) 8106479329266893 (by norm_num) (by norm_num) (by norm_num)
    (by norm_num) (by norm_num)]
  norm_num

theorem fl_sixty : fl 60 = 60 := by
  rw [fl_pos 60 (-47) 8444249301319680 (by norm_num) (by norm_num) (by norm_num)
    (by norm_num) (by norm_num)]
  norm_num

theorem fl_slab_right : fl 540 = 540 := by
  rw [fl_pos 540 (-43) 4749890231992320 (by norm_num) (by norm_num) (by norm_num)
    (by norm_num) (by norm_num)]
  norm_num

theorem fl_player_right : fl (60 + 28) = 88 := by
  rw [fl_pos (60 + 28) (-46) 6192449487634432 (by norm_num) (by norm_num) (by norm_num)
    (by norm_num) (by norm_num)]
  norm_num

theorem fl_onSlab_y :
    fl ((4447304632028365 / 70368744177664 : ℚ) + 8106479329266893 / 9007199254740992) =
      4510636501788263 / 70368744177664 := by
  rw [fl_pos _ (-46) 4510636501788263 (by norm_num) (by norm_num) (by norm_num)
    (by norm_num) (by norm_num)]
  norm_num

theorem fl_slab_bottom :
    fl ((6980579422424269 / 70368744177664 : ℚ) + 24) =
      8669429282688205 / 70368744177664 := by
  rw [fl_pos _ (-46) 8669429282688205 (by norm_num) (by norm_num) (by norm_num)
    (by norm_num) (by norm_num)]
  norm_num

theorem fl_onSlab_bottom :
    fl ((4510636501788263 / 70368744177664 : ℚ) + 36) =
      7043911292184167 / 70368744177664 := by
  rw [fl_pos _ (-46) 7043911292184167 (by norm_num) (by norm_num) (by norm_num)
    (by norm_num) (by norm_num)]
  norm_num

theorem fl_onSlab_prevTop :
    fl ((4510636501788263 / 70368744177664 : ℚ) - 8106479329266893 / 9007199254740992) =
      8894609264056731 / 140737488355328 := by
  rw [fl_pos _ (-47) 8894609264056731 (by norm_num) (by norm_num) (by norm_num)
    (by norm_num) (by norm_num)]
  norm_num

theorem fl_onSlab_prevBottom :
    fl ((8894609264056731 / 140737488355328 : ℚ) + 36) =
      3490289711212135 / 35184372088832 := by
  rw [fl_pos_tie_odd _ (-46) 6980579422424269 (by norm_num) (by norm_num) (by norm_num)
    (by norm_num) (by norm_num)]
  norm_num

theorem onSlab_integrated64 :
    (integrated onSlab).x = 60 ∧
    (integrated onSlab).y = 4510636501788263 / 70368744177664 ∧
    (integrated onSlab).w = 28 ∧ (integrated onSlab).h = 36 ∧
    (integrated onSlab).vx = 0 ∧
    (integrated onSlab).vy = 8106479329266893 / 9007199254740992 := by
  obtain ⟨ivx, ivy, ix, iy, iw, ih, _⟩ := integrated64_fields onSlab
  have hvx : (integrated onSlab).vx = 0 := by
    rw [ivx]
    show clamp (fl (0 * fl 0.85)) (-4) 4 = 0
    rw [zero_mul, fl_zero]
    norm_num [clamp]
  have hvy : (integrated onSlab).vy = 8106479329266893 / 9007199254740992 := by
    rw [ivy]
    show clamp (fl (0 + fl 0.9)) (-999) 24 = _
    rw [zero_add, fl_nine_tenths, fl_double_nine_tenths]
    norm_num [clamp]
  refine ⟨?_, ?_, iw, ih, hvx, hvy⟩
  · rw [ix, hvx]
    show fl (60 + 0) = 60
    rw [add_zero, fl_sixty]
  · rw [iy, hvy]
    exact fl_onSlab_y

theorem onSlab_update64 :
    (update 800 onSlab).player.x = 60 ∧
    (update 800 onSlab).player.y = 4510636501788263 / 70368744177664 ∧
    (update 800 onSlab).player.w = 28 ∧ (update 800 onSlab).player.h = 36 ∧
    (update 800 onSlab).player.grounded = false := by
  obtain ⟨mx, my, mw, mh, _, _, mg, _⟩ := update_motion64 800 onSlab
  obtain ⟨ix, iy, iw, ih, ivx, ivy⟩ := onSlab_integrated64
  have ho : rectsOverlap { integrated onSlab with grounded := false } slab = true := by
    rw [rectsOverlap64_iff]
    show (integrated onSlab).x < fl (0 + 540) ∧
      fl ((integrated onSlab).x + (integrated onSlab).w) > 0 ∧
      (integrated onSlab).y < fl (6980579422424269 / 70368744177664 + 24) ∧
      fl ((integrated onSlab).y + (integrated onSlab).h) > 6980579422424269 / 70368744177664
    rw [ix, iy, iw, ih, zero_add, fl_slab_right, fl_player_right, fl_slab_bottom,
      fl_onSlab_bottom]
    norm_num
  have h1 : ¬ (fadd (fsub (integrated onSlab).y (integrated onSlab).vy) (integrated onSlab).h ≤
      slab.y ∧ (integrated onSlab).vy > 0) := by
    intro hc
    have hb := hc.1
    rw [iy, ivy, ih] at hb
    have hb' : fl (fl ((4510636501788263 / 70368744177664 : ℚ) -
        8106479329266893 / 9007199254740992) + 36) ≤ 6980579422424269 / 70368744177664 := hb
    rw [fl_onSlab_prevTop, fl_onSlab_prevBottom] at hb'
    norm_num at hb'
  have h2 : ¬ (fsub (integrated onSlab).y (integrated onSlab).vy ≥ fadd slab.y slab.h ∧
      (integrated onSlab).vy < 0) := by
    intro hc
    have hv := hc.2
    rw [ivy] at hv
    norm_num at hv
  have hr := resolvePlatform_side64 { integrated onSlab with grounded := false } slab ho h1 h2 ivx
  rw [mx, my, mw, mh, mg, movedPlayer64_single onSlab slab rfl, hr]
  exact ⟨ix, iy, iw, ih, rfl⟩

end Binary64

/-! ## The claims -/

/-- C1. Clamp invariant: whatever the world state, the input held and the
platform list, after one call of `update` the player's velocity satisfies
`-4 ≤ vx ≤ 4` and `vy ≤ 24`. -/
theorem update_velocity_clamped (viewW : ℚ) (s : World) :
    -4 ≤ (update viewW s).player.vx ∧ (update viewW s).player.vx ≤ 4 ∧
      (update viewW s).player.vy ≤ 24 := by
  obtain ⟨h1, h2, h3, _⟩ := movedPlayer_velOk s
  rw [update_player]
  exact ⟨h1, h2, h3⟩

/-- C2. Whatever the world state, the input and the platform list (several
platforms may overlap the player in one frame), if `player.grounded` is true
after one call of `update` then `player.vy` is `0` after that call. -/
theorem update_grounded_vy_zero (viewW : ℚ) (s : World)
    (h : (update viewW s).player.grounded = true) : (update viewW s).player.vy = 0 := by
  obtain ⟨_, _, _, h4⟩ := movedPlayer_velOk s
  rw [update_player] at h ⊢
  exact h4 h

/-- Witness for C2: a player standing on a slab is grounded after the frame. -/
theorem update_grounded_vy_zero_witness :
    (update 800 standing).player.grounded = true ∧ (update 800 standing).player.vy = 0 :=
  have h : (update 800 standing).player.grounded = true := by
    rw [update_player]
    norm_num [movedPlayer, standing, initialPlayer, collidePlatforms, applyVelocity, applyGravity,
      applyInput, resolvePlatform, rectsOverlap, clamp, FRICTION, MOVE_SPEED, GRAVITY, MAX_FALL]
  ⟨h, update_grounded_vy_zero 800 standing h⟩

/-- C3. `tryJump` honours a jump request exactly when the player is grounded
and neither dead nor won: then it sets `vy` to `-14` and `grounded` to false
and changes nothing else; in every other case (in particular whenever
`grounded` is false) it returns the world state unchanged, so a second
`tryJump` directly after an honoured one has no effect. -/
theorem tryJump_spec (s : World) :
    (s.player.grounded = true ∧ s.player.dead = false ∧ s.player.won = false →
      tryJump s = { s with player := { s.player with vy := -14, grounded := false } }) ∧
    (¬ (s.player.grounded = true ∧ s.player.dead = false ∧ s.player.won = false) →
      tryJump s = s) ∧
    (s.player.grounded = false → tryJump s = s) ∧
    tryJump (tryJump s) = tryJump s := by
  unfold tryJump JUMP_VEL
  cases hg : s.player.grounded <;> cases hd : s.player.dead <;> cases hw : s.player.won <;>
    simp [hg, hd, hw]

/-- Witness for C3: the standing player jumps, and only `vy` and `grounded` change. -/
theorem tryJump_spec_witness :
    tryJump standing =
      { standing with player := { standing.player with vy := -14, grounded := false } } :=
  (tryJump_spec standing).1 ⟨rfl, rfl, rfl⟩

/-- C4. Coin-count invariant: in every state reachable from `buildLevel` by
any sequence of `update`, `tryJump`, left/right key changes and pointer-down
resets, `player.coins` equals the number of coins whose `taken` flag is true;
`buildLevel` establishes the equality and `update`, `tryJump` and the reset
each preserve it. -/
theorem coin_count_invariant :
    (∀ s : World, Reachable s → coinInv s) ∧
    (∀ s : World, coinInv (buildLevel s)) ∧
    (∀ (viewW : ℚ) (s : World), coinInv s → coinInv (update viewW s)) ∧
    (∀ s : World, coinInv s → coinInv (tryJump s)) ∧
    (∀ s : World, coinInv s → coinInv (pointerdown s)) := by
  refine ⟨?_, buildLevel_coinInv, update_coinInv, tryJump_coinInv, pointerdown_coinInv⟩
  intro s hs
  induction hs with
  | build s => exact buildLevel_coinInv s
  | frame viewW s _ ih => exact update_coinInv viewW s ih
  | jump s _ ih => exact tryJump_coinInv s ih
  | left s down _ ih => exact ih
  | right s down _ ih => exact ih
  | restart s _ ih => exact pointerdown_coinInv s ih

/-- Witness for C4: the invariant at a state reached by building the level,
holding right, running a frame and requesting a jump. -/
theorem coin_count_invariant_witness :
    coinInv (tryJump (update 800 (setRight (buildLevel standing) true))) :=
  coin_count_invariant.1 _
    (Reachable.jump _ (Reachable.frame 800 _ (Reachable.right _ true (Reachable.build standing))))

/-- C5, counterexample.  The claim says a dead or won player keeps the pair
`(dead, won)` through `update`.  A dead player whose centre reaches the goal
becomes won as well, and a won player whose centre reaches a hazard becomes
dead as well. -/
theorem update_status_not_absorbing :
    (deadAtGoal.player.dead = true ∧ deadAtGoal.player.won = false ∧
      (update 800 deadAtGoal).player.won = true) ∧
    (wonAtHazard.player.won = true ∧ wonAtHazard.player.dead = false ∧
      (update 800 wonAtHazard).player.dead = true) := by
  refine ⟨⟨rfl, rfl, ?_⟩, ⟨rfl, rfl, ?_⟩⟩
  · rw [update_won_eq]
    norm_num [goalHit, goalInRange, movedPlayer, deadAtGoal, emptyLevel, levelGoal, initialPlayer,
      collidePlatforms, applyVelocity, applyGravity, applyInput, clamp, FRICTION, MOVE_SPEED,
      GRAVITY, MAX_FALL]
  · rw [update_dead_eq]
    norm_num [hazardHit, hazardInRange, movedPlayer, wonAtHazard, emptyLevel, initialPlayer,
      collidePlatforms, applyVelocity, applyGravity, applyInput, clamp, FRICTION, MOVE_SPEED,
      GRAVITY, MAX_FALL]

/-- C5, amended.  For every world state in which the player is dead or won
before a call of `update`, the call never clears either flag, and the pair
`(dead, won)` is unchanged exactly when no missing flag is newly set: the
player was already dead or the hazard-and-fall test fails at the position
reached after movement, and was already won or the goal test fails there.  The
hazard loop and the fall check are not guarded by the status, and the goal
check is guarded by `won` only. -/
theorem update_status_monotone (viewW : ℚ) (s : World)
    (_h : s.player.dead = true ∨ s.player.won = true) :
    (s.player.dead = true → (update viewW s).player.dead = true) ∧
    (s.player.won = true → (update viewW s).player.won = true) ∧
    (((update viewW s).player.dead, (update viewW s).player.won) =
        (s.player.dead, s.player.won) ↔
      (s.player.dead = true ∨ hazardHit s = false) ∧
        (s.player.won = true ∨ goalHit s = false)) := by
  rw [update_dead_eq, update_won_eq]
  cases s.player.dead <;> cases s.player.won <;> cases hazardHit s <;> cases goalHit s <;> simp

/-- Witness for the amended C5: the dead player at the goal stays dead. -/
theorem update_status_monotone_witness : (update 800 deadAtGoal).player.dead = true :=
  (update_status_monotone 800 deadAtGoal (Or.inl rfl)).1 rfl

/-- C6, counterexample.  The claim says `update` leaves the tally and the
`taken` flags alone when the player is dead.  A dead player whose centre is on
an untaken coin picks it up: the coin is flagged and the tally goes from 0 to 1. -/
theorem update_dead_player_collects :
    deadAtCoin.player.dead = true ∧ deadAtCoin.player.coins = 0 ∧
      deadAtCoin.coins = [{ x := 220, y := 310, r := 8, taken := false }] ∧
      (update 800 deadAtCoin).player.coins = 1 ∧
      (update 800 deadAtCoin).coins = [{ x := 220, y := 310, r := 8, taken := true }] := by
  refine ⟨rfl, rfl, rfl, ?_, ?_⟩
  · rw [update_player]
    norm_num [picksUp, coinInRange, movedPlayer, deadAtCoin, emptyLevel, initialPlayer,
      collidePlatforms, applyVelocity, applyGravity, applyInput, clamp, FRICTION, MOVE_SPEED,
      GRAVITY, MAX_FALL]
  · rw [update_coins]
    norm_num [picksUp, coinInRange, movedPlayer, deadAtCoin, emptyLevel, initialPlayer,
      collidePlatforms, applyVelocity, applyGravity, applyInput, clamp, FRICTION, MOVE_SPEED,
      GRAVITY, MAX_FALL]

/-- C6, amended.  Coin pickup is evaluated on every frame whatever the status
(alive, dead or won): a call of `update` flags exactly the untaken coins whose
centre is within `r + 14` of the player's centre at the position reached after
movement (squared-distance test), leaves every other coin as it was, and adds
the number of coins it flagged to `player.coins`; so the tally and the flags
are unchanged exactly when no untaken coin is in range. -/
theorem update_coin_pickup (viewW : ℚ) (s : World) :
    (update viewW s).coins =
        s.coins.map (fun c =>
          if !c.taken && coinInRange (movedPlayer s) c then { c with taken := true } else c) ∧
    (update viewW s).player.coins =
        s.player.coins +
          (s.coins.filter (fun c => !c.taken && coinInRange (movedPlayer s) c)).length ∧
    (((update viewW s).player.coins = s.player.coins ∧ (update viewW s).coins = s.coins) ↔
        ∀ c ∈ s.coins, (!c.taken && coinInRange (movedPlayer s) c) = false) := by
  have hc : (update viewW s).player.coins =
      s.player.coins + (s.coins.filter (picksUp (movedPlayer s))).length := by
    rw [update_player]
    simp [(movedPlayer_sameFixed s).2.2.1]
  refine ⟨update_coins viewW s, hc, ?_⟩
  rw [hc, update_coins]
  constructor
  · rintro ⟨h1, _⟩ c hmem
    have h0 : (s.coins.filter (picksUp (movedPlayer s))).length = 0 := by omega
    have hnil := List.length_eq_zero.mp h0
    have := List.filter_eq_nil_iff.mp hnil c hmem
    simpa [picksUp] using this
  · intro h
    have hall : ∀ c ∈ s.coins, picksUp (movedPlayer s) c = false := h
    constructor
    · have : s.coins.filter (picksUp (movedPlayer s)) = [] :=
        List.filter_eq_nil_iff.mpr (fun c hmem => by simp [hall c hmem])
      simp [this]
    · conv_rhs => rw [← List.map_id s.coins]
      apply List.map_congr_left
      intro c hmem
      simp [hall c hmem]

/-- C7, counterexample.  The claim says a frame that turns `won` from false to
true leaves `goal.taken` true.  An alive player whose centre is on the
untaken goal wins on that frame, and the goal is still untaken afterwards. -/
theorem update_win_leaves_goal_untaken :
    aliveAtGoal.player.won = false ∧ (update 800 aliveAtGoal).player.won = true ∧
      (update 800 aliveAtGoal).goal = some { x := 3720, y := 290, r := 14, taken := false } := by
  refine ⟨rfl, ?_, rfl⟩
  rw [update_won_eq]
  norm_num [goalHit, goalInRange, movedPlayer, aliveAtGoal, emptyLevel, levelGoal, initialPlayer,
    collidePlatforms, applyVelocity, applyGravity, applyInput, clamp, FRICTION, MOVE_SPEED,
    GRAVITY, MAX_FALL]

/-- C7, amended.  `update` never writes the goal: for every world state, also
when the call changes `player.won` from false to true, the goal after the call
is the goal before it, so `goal.taken` keeps its value; in every state
reachable from `buildLevel` the goal is the untaken goal at `(3720, 290)` of
radius 14.  Winning is recorded in `player.won` only. -/
theorem update_goal_unchanged :
    (∀ (viewW : ℚ) (s : World), (update viewW s).goal = s.goal) ∧
    (∀ s : World, Reachable s →
      s.goal = some { x := 3720, y := 290, r := 14, taken := false }) :=
  ⟨update_goal, reachable_goal⟩

/-- C8. Death condition: for every world state in which the player is alive
(neither dead nor won) before `update`, `player.dead` is true after `update`
if and only if, at the position reached after this frame's movement and
collision resolution, the squared distance from the player's centre
`(x + w/2, y + h/2)` to the centre of some hazard is less than `(r + 12)^2`, or
`player.y` is greater than 1000.  That position is the player's position after
the call.  In particular a hazard of radius 14 whose centre is closer than 26
(squared distance below `26^2`) kills the player on that frame. -/
theorem update_dead_iff (viewW : ℚ) (s : World)
    (hd : s.player.dead = false) (_hw : s.player.won = false) :
    ((update viewW s).player.dead = true ↔
      (∃ h ∈ s.hazards,
        ((update viewW s).player.x + (update viewW s).player.w / 2 - h.x) ^ 2 +
          ((update viewW s).player.y + (update viewW s).player.h / 2 - h.y) ^ 2 <
            (h.r + 12) ^ 2) ∨
      (update viewW s).player.y > 1000) ∧
    ((update viewW s).player.x = (movedPlayer s).x ∧
      (update viewW s).player.y = (movedPlayer s).y ∧
      (update viewW s).player.w = (movedPlayer s).w ∧
      (update viewW s).player.h = (movedPlayer s).h) ∧
    (∀ h ∈ s.hazards, h.r = 14 →
      ((update viewW s).player.x + (update viewW s).player.w / 2 - h.x) ^ 2 +
          ((update viewW s).player.y + (update viewW s).player.h / 2 - h.y) ^ 2 < 26 ^ 2 →
      (update viewW s).player.dead = true) := by
  obtain ⟨hx, hy, hw, hh⟩ := update_position viewW s
  have key : (update viewW s).player.dead = true ↔
      (∃ h ∈ s.hazards,
        ((update viewW s).player.x + (update viewW s).player.w / 2 - h.x) ^ 2 +
          ((update viewW s).player.y + (update viewW s).player.h / 2 - h.y) ^ 2 <
            (h.r + 12) ^ 2) ∨
      (update viewW s).player.y > 1000 := by
    rw [update_dead_eq, hd, Bool.false_or, hazardHit_iff, hx, hy, hw, hh]
  refine ⟨key, ⟨hx, hy, hw, hh⟩, ?_⟩
  intro h hmem hr hlt
  refine key.mpr (Or.inl ⟨h, hmem, ?_⟩)
  rw [hr]
  norm_num at hlt ⊢
  exact hlt

/-- Witness for C8: an alive player whose centre is on a hazard of radius 14
is dead after the frame. -/
theorem update_dead_iff_witness : (update 800 aliveAtHazard).player.dead = true :=
  (update_dead_iff 800 aliveAtHazard rfl rfl).1.mpr
    (Or.inl ⟨{ x := 600, y := 428, r := 14 }, List.mem_singleton.mpr rfl, by
      rw [update_player]
      norm_num [movedPlayer, aliveAtHazard, emptyLevel, initialPlayer, collidePlatforms,
        applyVelocity, applyGravity, applyInput, clamp, FRICTION, MOVE_SPEED, GRAVITY,
        MAX_FALL]⟩)

/-- C9. Win condition: for every world state in which the player is alive
(neither dead nor won) before `update` and a goal exists, `player.won` is true
after `update` if and only if, at the position reached after this frame's
movement and collision resolution, the squared distance from the player's
centre `(x + w/2, y + h/2)` to the goal centre is less than `(goal.r + 14)^2`.
That position is the player's position after the call. -/
theorem update_won_iff (viewW : ℚ) (s : World) (g : Goal)
    (_hd : s.player.dead = false) (hw : s.player.won = false) (hg : s.goal = some g) :
    ((update viewW s).player.won = true ↔
      ((update viewW s).player.x + (update viewW s).player.w / 2 - g.x) ^ 2 +
        ((update viewW s).player.y + (update viewW s).player.h / 2 - g.y) ^ 2 <
          (g.r + 14) ^ 2) ∧
    ((update viewW s).player.x = (movedPlayer s).x ∧
      (update viewW s).player.y = (movedPlayer s).y ∧
      (update viewW s).player.w = (movedPlayer s).w ∧
      (update viewW s).player.h = (movedPlayer s).h) := by
  obtain ⟨hx, hy, hw', hh⟩ := update_position viewW s
  refine ⟨?_, ⟨hx, hy, hw', hh⟩⟩
  rw [update_won_eq, hw, Bool.false_or, hx, hy, hw', hh]
  unfold goalHit
  rw [hg]
  exact goalInRange_iff (movedPlayer s) g

/-- Witness for C9: an alive player whose centre is on the goal has won after
the frame. -/
theorem update_won_iff_witness : (update 800 aliveAtGoal).player.won = true :=
  (update_won_iff 800 aliveAtGoal levelGoal rfl rfl rfl).1.mpr (by
    rw [update_player]
    norm_num [movedPlayer, aliveAtGoal, emptyLevel, levelGoal, initialPlayer, collidePlatforms,
      applyVelocity, applyGravity, applyInput, clamp, FRICTION, MOVE_SPEED, GRAVITY, MAX_FALL])

/-- C10. Status is irreversible without a reset: for every world state and
input, `update` and `tryJump` never change `player.dead` from true to false
and never change `player.won` from true to false (`tryJump` and the key
handlers leave both flags as they are); `buildLevel`, the reset, clears both. -/
theorem status_irreversible (viewW : ℚ) (s : World) :
    (s.player.dead = true → (update viewW s).player.dead = true) ∧
    (s.player.won = true → (update viewW s).player.won = true) ∧
    (tryJump s).player.dead = s.player.dead ∧
    (tryJump s).player.won = s.player.won ∧
    (∀ down : Bool, (setLeft s down).player = s.player ∧ (setRight s down).player = s.player) ∧
    (buildLevel s).player.dead = false ∧ (buildLevel s).player.won = false := by
  refine ⟨?_, ?_, ?_, ?_, fun _ => ⟨rfl, rfl⟩, ?_, ?_⟩
  · intro h
    rw [update_dead_eq, h, Bool.true_or]
  · intro h
    rw [update_won_eq, h, Bool.true_or]
  · unfold tryJump
    split <;> rfl
  · unfold tryJump
    split <;> rfl
  · rw [buildLevel_player]
  · rw [buildLevel_player]

/-- Witness for C10: the dead player at the goal is still dead after a frame
and after a jump request, and is no longer dead after `buildLevel`. -/
theorem status_irreversible_witness :
    (update 800 deadAtGoal).player.dead = true ∧
      (tryJump deadAtGoal).player.dead = true ∧
      (buildLevel deadAtGoal).player.dead = false :=
  ⟨(status_irreversible 800 deadAtGoal).1 rfl,
   (status_irreversible 800 deadAtGoal).2.2.1.trans rfl,
   (status_irreversible 800 deadAtGoal).2.2.2.2.2.1⟩

/-- C11. Coin `taken` flags are monotonic within a run: for every world state
and input, `update` keeps the coin list position by position (no coin is
added, removed or reordered, and each keeps its `x`, `y` and `r`), and every
coin whose `taken` flag is true before the call still has it true after it;
`tryJump` does not touch the coin list at all. -/
theorem coins_taken_monotone (viewW : ℚ) (s : World) :
    (update viewW s).coins.length = s.coins.length ∧
    List.Forall₂
      (fun c c' => c'.x = c.x ∧ c'.y = c.y ∧ c'.r = c.r ∧ (c.taken = true → c'.taken = true))
      s.coins (update viewW s).coins ∧
    (tryJump s).coins = s.coins := by
  refine ⟨?_, ?_, ?_⟩
  · rw [update_coins, List.length_map]
  · rw [update_coins, List.forall₂_map_right_iff, List.forall₂_same]
    intro c _
    cases picksUp (movedPlayer s) c <;> simp
  · unfold tryJump
    split <;> rfl

/-- C12. Reset scenario: for every prior world state (in particular a dead
player with coins collected), after `buildLevel` the player has `x = 60`,
`y = 0`, `vx = 0`, `vy = 0`, `coins = 0` and is alive (`dead = false`,
`won = false`), every coin of the coin list has `taken = false`, and the goal
exists with `taken = false`. -/
theorem buildLevel_reset (s : World) :
    (buildLevel s).player.x = 60 ∧ (buildLevel s).player.y = 0 ∧
    (buildLevel s).player.vx = 0 ∧ (buildLevel s).player.vy = 0 ∧
    (buildLevel s).player.coins = 0 ∧
    (buildLevel s).player.dead = false ∧ (buildLevel s).player.won = false ∧
    (∀ c ∈ (buildLevel s).coins, c.taken = false) ∧
    (∃ g : Goal, (buildLevel s).goal = some g ∧ g.taken = false) := by
  rw [buildLevel_eq]
  refine ⟨rfl, rfl, rfl, rfl, rfl, rfl, rfl, ?_, ⟨levelGoal, rfl, rfl⟩⟩
  intro c hc
  simp only [levelCoins, List.mem_map] at hc
  obtain ⟨q, _, rfl⟩ := hc
  rfl

/-- Witness for C12: resetting the dead player that holds one coin. -/
theorem buildLevel_reset_witness :
    (update 800 deadAtCoin).player.dead = true ∧
      (buildLevel (update 800 deadAtCoin)).player.dead = false ∧
      (buildLevel (update 800 deadAtCoin)).player.coins = 0 :=
  ⟨(update_dead_eq 800 deadAtCoin).trans rfl,
   (buildLevel_reset (update 800 deadAtCoin)).2.2.2.2.2.1,
   (buildLevel_reset (update 800 deadAtCoin)).2.2.2.2.1⟩

/-- C13, counterexample.  The claim says that after `buildLevel` every field
of the player has its declared initial value, `facing = 1` in particular.  A
player facing left before the reset still faces left after it. -/
theorem buildLevel_keeps_facing :
    facingLeft.player.facing = -1 ∧ (buildLevel facingLeft).player.facing = -1 ∧
      initialPlayer.facing = 1 ∧ (buildLevel facingLeft).player ≠ initialPlayer := by
  refine ⟨rfl, ?_, rfl, ?_⟩
  · rw [buildLevel_eq]
    rfl
  · rw [buildLevel_eq]
    intro h
    have hf := congrArg Player.facing h
    simp [facingLeft, standing, initialPlayer] at hf

/-- C13, amended.  For every prior world state, after `buildLevel` the fields
`x`, `y`, `vx`, `vy`, `grounded`, `coins`, `won` and `dead` of the player have
their values of the initial player declaration, and `w`, `h` and `facing` are
left as they were before the call (the assignments of `buildLevel` do not name
them); so the player equals the initial declaration exactly when `w`, `h` and
`facing` already had their declared values `28`, `36` and `1`. -/
theorem buildLevel_player_fields (s : World) :
    (buildLevel s).player =
        { initialPlayer with w := s.player.w, h := s.player.h, facing := s.player.facing } ∧
    ((buildLevel s).player = initialPlayer ↔
      s.player.w = 28 ∧ s.player.h = 36 ∧ s.player.facing = 1) := by
  have h : (buildLevel s).player =
      { initialPlayer with w := s.player.w, h := s.player.h, facing := s.player.facing } := by
    rw [buildLevel_eq]
    rfl
  refine ⟨h, ?_⟩
  rw [h]
  constructor
  · intro e
    exact ⟨congrArg Player.w e, congrArg Player.h e, congrArg Player.facing e⟩
  · rintro ⟨hw, hh, hf⟩
    simp only [hw, hh, hf]
    rfl

/-- C14. Level geometry is rebuilt wholesale on reset: whatever two prior
world states held, `buildLevel` produces the same platform, coin, hazard and
goal data, namely exactly 25 platforms, 15 untaken coins of radius 8, 5 hazards
of radius 14 and the goal at `(3720, 290)` of radius 14; and `buildLevel` is
idempotent. -/
theorem buildLevel_wholesale :
    (∀ s₁ s₂ : World,
      (buildLevel s₁).platforms = (buildLevel s₂).platforms ∧
      (buildLevel s₁).coins = (buildLevel s₂).coins ∧
      (buildLevel s₁).hazards = (buildLevel s₂).hazards ∧
      (buildLevel s₁).goal = (buildLevel s₂).goal) ∧
    (∀ s : World,
      (buildLevel s).platforms.length = 25 ∧
      (buildLevel s).coins.length = 15 ∧
      (∀ c ∈ (buildLevel s).coins, c.r = 8 ∧ c.taken = false) ∧
      (buildLevel s).hazards.length = 5 ∧
      (∀ h ∈ (buildLevel s).hazards, h.r = 14) ∧
      (buildLevel s).goal = some { x := 3720, y := 290, r := 14, taken := false } ∧
      buildLevel (buildLevel s) = buildLevel s) := by
  constructor
  · intro s₁ s₂
    rw [buildLevel_eq s₁, buildLevel_eq s₂]
    exact ⟨rfl, rfl, rfl, rfl⟩
  · intro s
    refine ⟨?_, ?_, ?_, ?_, ?_, ?_, ?_⟩
    · rw [buildLevel_eq]; rfl
    · rw [buildLevel_eq]; rfl
    · rw [buildLevel_eq]
      intro c hc
      simp only [levelCoins, List.mem_map] at hc
      obtain ⟨q, _, rfl⟩ := hc
      exact ⟨rfl, rfl⟩
    · rw [buildLevel_eq]; rfl
    · rw [buildLevel_eq]
      intro h hh
      simp only [levelHazards, List.mem_cons, List.mem_singleton, List.not_mem_nil,
        or_false] at hh
      rcases hh with rfl | rfl | rfl | rfl | rfl <;> rfl
    · rw [buildLevel_eq]; rfl
    · rw [buildLevel_eq (buildLevel s), buildLevel_eq s]

/-- C15. The reset trigger is enabled only in the terminal statuses: the
pointer-down handler leaves the whole world state unchanged when the player is
neither dead nor won, and yields exactly the state `buildLevel` yields when the
player is dead or won. -/
theorem pointerdown_spec (s : World) :
    (s.player.dead = false ∧ s.player.won = false → pointerdown s = s) ∧
    (s.player.dead = true ∨ s.player.won = true → pointerdown s = buildLevel s) := by
  unfold pointerdown
  cases hd : s.player.dead <;> cases hw : s.player.won <;> simp

/-- Witness for C15: the alive standing player is left alone, the dead player
at the goal is reset. -/
theorem pointerdown_spec_witness :
    pointerdown standing = standing ∧ pointerdown deadAtGoal = buildLevel deadAtGoal :=
  ⟨(pointerdown_spec standing).1 ⟨rfl, rfl⟩, (pointerdown_spec deadAtGoal).2 (Or.inl rfl)⟩

/-- C16. Camera clamp: for every world state, input and viewport width, after
`update` we have `camera.y = 0` and
`camera.x = max 0 (min 4000 (player.x + player.w / 2 - viewW / 2))` with the
player's position after collision resolution, so `0 ≤ camera.x ≤ 4000`, and
`camera.x = 4000` whenever `player.x + player.w / 2 - viewW / 2 ≥ 4000`; the
result does not depend on the previous camera. -/
theorem update_camera_clamp (viewW : ℚ) (s : World) :
    (update viewW s).camera.y = 0 ∧
    (update viewW s).camera.x =
      max 0 (min 4000 ((update viewW s).player.x + (update viewW s).player.w / 2 - viewW / 2)) ∧
    ((update viewW s).player.x = (movedPlayer s).x ∧
      (update viewW s).player.w = (movedPlayer s).w) ∧
    0 ≤ (update viewW s).camera.x ∧ (update viewW s).camera.x ≤ 4000 ∧
    ((update viewW s).player.x + (update viewW s).player.w / 2 - viewW / 2 ≥ 4000 →
      (update viewW s).camera.x = 4000) ∧
    (∀ c : Camera, (update viewW { s with camera := c }).camera = (update viewW s).camera) := by
  obtain ⟨hx, _, hw, _⟩ := update_position viewW s
  rw [update_camera]
  refine ⟨rfl, rfl, ⟨hx, hw⟩, clamp_ge _ _ _, clamp_le _ _ _ (by norm_num), ?_, fun c => rfl⟩
  intro h
  show clamp _ 0 4000 = 4000
  unfold clamp
  rw [min_eq_left h, max_eq_right (by norm_num)]

/-- Witness for C16: far to the right of the scroll bound the camera stops at 4000. -/
theorem update_camera_clamp_witness :
    (update 800 (emptyLevel 5000 0 false false)).camera.x = 4000 :=
  (update_camera_clamp 800 (emptyLevel 5000 0 false false)).2.2.2.2.2.1 (by
    rw [update_player]
    norm_num [movedPlayer, emptyLevel, initialPlayer, collidePlatforms, applyVelocity,
      applyGravity, applyInput, clamp, FRICTION, MOVE_SPEED, GRAVITY, MAX_FALL])

/-- C18. Collision classification against one platform.  Let the platform
list be the single platform `p`, let `q` be the player after this frame's
velocity integration and `u` the player after `update`, and let
`prevTop = q.y - q.vy`, `prevBottom = prevTop + q.h`.  If `q` overlaps `p`
(strict AABB overlap): (a) if `prevBottom ≤ p.y` and `q.vy > 0`, then
`u.y = p.y - h`, `u.vy = 0`, `u.grounded = true` and `x`, `vx` are as
integrated; (b) otherwise, if `prevTop ≥ p.y + p.h` and `q.vy < 0`, then
`u.y = p.y + p.h`, `u.vy = 0`, `u.grounded = false`; (c) otherwise `u.vx = 0`,
`y` and `vy` are as integrated, `u.grounded = false`, and `u.x` is `p.x - w` if
`q.vx > 0`, `p.x + p.w` if `q.vx < 0`, unchanged if `q.vx = 0`.  If `q` does not
overlap `p`, position and velocity stay as integrated and `u.grounded = false`.
The height and width of `q` are the player's. -/
theorem collision_classification (viewW : ℚ) (s : World) (p : Platform) (q u : Player)
    (hp : s.platforms = [p]) (hq : q = integrated s) (hu : u = (update viewW s).player) :
    (q.x < p.x + p.w ∧ q.x + q.w > p.x ∧ q.y < p.y + p.h ∧ q.y + q.h > p.y →
      (q.y - q.vy + q.h ≤ p.y ∧ q.vy > 0 →
        u.y = p.y - q.h ∧ u.vy = 0 ∧ u.grounded = true ∧ u.x = q.x ∧ u.vx = q.vx) ∧
      (¬ (q.y - q.vy + q.h ≤ p.y ∧ q.vy > 0) → q.y - q.vy ≥ p.y + p.h ∧ q.vy < 0 →
        u.y = p.y + p.h ∧ u.vy = 0 ∧ u.grounded = false ∧ u.x = q.x ∧ u.vx = q.vx) ∧
      (¬ (q.y - q.vy + q.h ≤ p.y ∧ q.vy > 0) → ¬ (q.y - q.vy ≥ p.y + p.h ∧ q.vy < 0) →
        u.vx = 0 ∧ u.y = q.y ∧ u.vy = q.vy ∧ u.grounded = false ∧
        (q.vx > 0 → u.x = p.x - q.w) ∧ (q.vx < 0 → u.x = p.x + p.w) ∧
        (q.vx = 0 → u.x = q.x))) ∧
    (¬ (q.x < p.x + p.w ∧ q.x + q.w > p.x ∧ q.y < p.y + p.h ∧ q.y + q.h > p.y) →
      u.x = q.x ∧ u.y = q.y ∧ u.vx = q.vx ∧ u.vy = q.vy ∧ u.grounded = false) ∧
    (q.w = s.player.w ∧ q.h = s.player.h) := by
  obtain ⟨hx, hy, hvx, hvy, hg⟩ := update_player_single viewW s p hp
  subst hq hu
  rw [hx, hy, hvx, hvy, hg]
  have hov : rectsOverlap { integrated s with grounded := false } p = true ↔
      (integrated s).x < p.x + p.w ∧ (integrated s).x + (integrated s).w > p.x ∧
        (integrated s).y < p.y + p.h ∧ (integrated s).y + (integrated s).h > p.y :=
    rectsOverlap_iff _ _
  refine ⟨fun ho => ⟨?_, ?_, ?_⟩, ?_, integrated_size s⟩
  · intro h1
    rw [resolvePlatform_land _ p (hov.mpr ho) h1]
    exact ⟨rfl, rfl, rfl, rfl, rfl⟩
  · intro h1 h2
    rw [resolvePlatform_ceiling _ p (hov.mpr ho) h1 h2]
    exact ⟨rfl, rfl, rfl, rfl, rfl⟩
  · intro h1 h2
    rw [resolvePlatform_side _ p (hov.mpr ho) h1 h2]
    refine ⟨rfl, rfl, rfl, rfl, ?_, ?_, ?_⟩
    · intro h3
      show (if (integrated s).vx > 0 then _ else _) = _
      rw [if_pos h3]
    · intro h3
      show (if (integrated s).vx > 0 then _ else _) = _
      rw [if_neg (not_lt.mpr h3.le), if_pos h3]
    · intro h3
      show (if (integrated s).vx > 0 then _ else _) = _
      rw [if_neg (by rw [h3]; exact lt_irrefl 0), if_neg (by rw [h3]; exact lt_irrefl 0)]
  · intro ho
    have hf : rectsOverlap { integrated s with grounded := false } p = false := by
      cases hb : rectsOverlap { integrated s with grounded := false } p
      · rfl
      · exact absurd (hov.mp hb) ho
    rw [resolvePlatform_apart _ p hf]
    exact ⟨rfl, rfl, rfl, rfl, rfl⟩

/-- Witness for C18: the standing player sinks into the slab by gravity and is
put back on top of it (the landing case). -/
theorem collision_classification_witness :
    (update 800 standing).player.y = 420 - (integrated standing).h ∧
      (update 800 standing).player.vy = 0 ∧ (update 800 standing).player.grounded = true :=
  have h := (collision_classification 800 standing { x := 0, y := 420, w := 540, h := 24 }
    (integrated standing) (update 800 standing).player rfl rfl rfl).1
    (by norm_num [integrated, standing, initialPlayer, applyVelocity, applyGravity, applyInput,
      clamp, FRICTION, MOVE_SPEED, GRAVITY, MAX_FALL])
  have h1 := h.1
    (by norm_num [integrated, standing, initialPlayer, applyVelocity, applyGravity, applyInput,
      clamp, FRICTION, MOVE_SPEED, GRAVITY, MAX_FALL])
  ⟨h1.1, h1.2.1, h1.2.2.1⟩

/-- C19, counterexample.  The claim says that with both keys held
`vx' = clamp vx (-4) 4`.  The source subtracts `0.7` and then adds `0.7`, each
rounded to the nearest double: for `vx` the double written `0.1`, in an empty
level with both keys held, `update` yields the double `0.09999999999999998`,
one unit in the last place below `vx`. -/
theorem free_flight_both_keys_rounds :
    bothHeld.platforms = [] ∧ bothHeld.keys.left = true ∧ bothHeld.keys.right = true ∧
      Binary64.fl 0.1 = bothHeld.player.vx ∧
      (Binary64.update 800 bothHeld).player.vx = 900719925474099 / 9007199254740992 ∧
      (Binary64.update 800 bothHeld).player.vx ≠ clamp bothHeld.player.vx (-4) 4 := by
  refine ⟨rfl, rfl, rfl, Binary64.fl_one_tenth, Binary64.bothHeld_vx64, ?_⟩
  rw [Binary64.bothHeld_vx64]
  show (900719925474099 / 9007199254740992 : ℚ) ≠
    clamp (3602879701896397 / 36028797018963968) (-4) 4
  norm_num [clamp]

/-- C19, amended.  Velocity integration in free flight, in the double
arithmetic of the source (every `+`, `-`, `*` rounded to the nearest double,
`0.7`, `0.85`, `0.9` denoting their nearest doubles): for a level with no
platforms and every player state and input, one `update` yields
`vx' = clamp v (-4) 4` where `v` is `vx - 0.7` if only left is held, `vx + 0.7`
if only right is held, `(vx - 0.7) + 0.7` computed in that order if both are
held (equal to `vx` only up to rounding) and `vx * 0.85` if neither is held;
`vy' = clamp (vy + 0.9) (-999) 24`; `x' = x + vx'`; `y' = y + vy'`;
`grounded' = false`; and `facing'` is `1` if right is held, `-1` if only left is
held and unchanged if neither is held. -/
theorem free_flight_rounded (viewW : ℚ) (s : World) (hp : s.platforms = []) :
    (Binary64.update viewW s).player.vx =
      clamp
        (if s.keys.left && !s.keys.right then
          Binary64.fsub s.player.vx (Binary64.fl 0.7)
         else if s.keys.right && !s.keys.left then
          Binary64.fadd s.player.vx (Binary64.fl 0.7)
         else if s.keys.left && s.keys.right then
          Binary64.fadd (Binary64.fsub s.player.vx (Binary64.fl 0.7)) (Binary64.fl 0.7)
         else Binary64.fmul s.player.vx (Binary64.fl 0.85)) (-4) 4 ∧
    (Binary64.update viewW s).player.vy =
      clamp (Binary64.fadd s.player.vy (Binary64.fl 0.9)) (-999) 24 ∧
    (Binary64.update viewW s).player.x =
      Binary64.fadd s.player.x (Binary64.update viewW s).player.vx ∧
    (Binary64.update viewW s).player.y =
      Binary64.fadd s.player.y (Binary64.update viewW s).player.vy ∧
    (Binary64.update viewW s).player.grounded = false ∧
    (Binary64.update viewW s).player.facing =
      (if s.keys.right then 1 else if s.keys.left then -1 else s.player.facing) :=
  Binary64.update_free64 viewW s hp

/-- Witness for the amended C19: the frame of the player with both keys held. -/
theorem free_flight_rounded_witness :
    (Binary64.update 800 bothHeld).player.grounded = false ∧
      (Binary64.update 800 bothHeld).player.facing = 1 :=
  ⟨(free_flight_rounded 800 bothHeld rfl).2.2.2.2.1,
   (free_flight_rounded 800 bothHeld rfl).2.2.2.2.2⟩

/-- C20, the code at a failing input.  A player of height 36 at rest with `y`
the double written `63.2` has its bottom edge exactly on the top of a slab
whose top is the double written `99.2` (`y + h ≤ p.y` holds, with equality).
One `update` in double precision moves it to `y = 64.10000000000001`; the
reconstructed previous bottom edge `(y - vy) + h` rounds to
`99.20000000000002 > 99.2`, so the landing branch is skipped and the
horizontal branch leaves the player where it is: not grounded, its bottom edge
below the slab top, and horizontally inside the slab. -/
theorem slab_landing_missed :
    onSlab.platforms = [slab] ∧ 0 ≤ slab.h ∧ onSlab.player.h = 36 ∧
      onSlab.player.y + onSlab.player.h ≤ slab.y ∧
      Binary64.fl 63.2 = onSlab.player.y ∧ Binary64.fl 99.2 = slab.y ∧
      (Binary64.update 800 onSlab).player.y = 4510636501788263 / 70368744177664 ∧
      (Binary64.update 800 onSlab).player.grounded = false ∧
      ¬ ((Binary64.update 800 onSlab).player.y + (Binary64.update 800 onSlab).player.h ≤ slab.y ∨
        (Binary64.update 800 onSlab).player.x ≥ slab.x + slab.w ∨
        (Binary64.update 800 onSlab).player.x + (Binary64.update 800 onSlab).player.w ≤
          slab.x) := by
  obtain ⟨ux, uy, uw, uh, ug⟩ := Binary64.onSlab_update64
  refine ⟨rfl, ?_, rfl, ?_, ?_, ?_, uy, ug, ?_⟩
  · norm_num [slab]
  · norm_num [onSlab, slab, initialPlayer]
  · rw [Binary64.fl_pos 63.2 (-47) 8894609264056730 (by norm_num) (by norm_num) (by norm_num)
      (by norm_num) (by norm_num)]
    norm_num [onSlab, initialPlayer]
  · rw [Binary64.fl_pos 99.2 (-46) 6980579422424269 (by norm_num) (by norm_num) (by norm_num)
      (by norm_num) (by norm_num)]
    norm_num [slab]
  · rw [ux, uy, uw, uh]
    norm_num [slab]

/-- C17. Spawn-fall scenario: start from the state `buildLevel` produces
(player of the declared size `28 × 36` at `x = 60`, `y = 0`, the built level
with the ground platform at `y = 420`) and apply `update` repeatedly with left
and right both false and no jump request.  There is a frame count `N` (at most
29) such that after any `n ≥ N` frames `player.y = 420 - player.h = 384`,
`player.grounded = true` and `player.vy = 0`. -/
theorem spawn_fall (s : World) (hw : s.player.w = 28) (hh : s.player.h = 36)
    (hl : s.keys.left = false) (hr : s.keys.right = false) :
    ∃ N : ℕ, N ≤ 29 ∧ ∀ viewWs : List ℚ, N ≤ viewWs.length →
      (frames viewWs (buildLevel s)).player.y = 420 - (frames viewWs (buildLevel s)).player.h ∧
      (frames viewWs (buildLevel s)).player.y = 384 ∧
      (frames viewWs (buildLevel s)).player.grounded = true ∧
      (frames viewWs (buildLevel s)).player.vy = 0 := by
  refine ⟨29, le_refl 29, ?_⟩
  intro viewWs hn
  obtain ⟨hsp, hk⟩ := falling_frames viewWs 0 (buildLevel s) (buildLevel_falling s hw hh hl hr)
  rw [if_neg (by omega)] at hk
  obtain ⟨hy, hvy, hg⟩ := hk
  refine ⟨?_, hy, hg, hvy⟩
  rw [hy, hsp.2.2.2.2.2.2]
  norm_num

/-- Witness for C17: the scenario started from the reset of the standing state. -/
theorem spawn_fall_witness :
    ∃ N : ℕ, N ≤ 29 ∧ ∀ viewWs : List ℚ, N ≤ viewWs.length →
      (frames viewWs (buildLevel standing)).player.y =
        420 - (frames viewWs (buildLevel standing)).player.h ∧
      (frames viewWs (buildLevel standing)).player.y = 384 ∧
      (frames viewWs (buildLevel standing)).player.grounded = true ∧
      (frames viewWs (buildLevel standing)).player.vy = 0 :=
  spawn_fall standing rfl rfl rfl rfl

end Game
